import Mathlib

/-!
# PIC16F688 MIDI sync firmware (`PIC16F688_MidiSych.c`)

A shallow embedding of the firmware: the special-function registers and the three
global bytes are fields of `State`, every C function is a state transformer, and a
run of the device is a list of events (a received byte handled by `interrupt`, or
one iteration of the `for(;;)` loop of `main`).

Registers and the global bytes are 8 bits wide; they are natural numbers here and
the only arithmetic the program does on them (the pre-decrement of a counter) is
taken modulo 256.
-/

namespace MidiSynch

/-! ## Registers and bits -/

/-- Read bit `k` of a register (`reg.k` used as a value). -/
def bitRead (r k : Nat) : Bool := r.testBit k

/-- Write bit `k` of an 8-bit register (`reg.k = v`). -/
def bitWrite (r k : Nat) (v : Bool) : Nat :=
  if v then r ||| (1 <<< k) else r &&& (255 ^^^ (1 <<< k))

/-- Special-function registers written or read by the program, and its three globals. -/
structure State where
  osccon : Nat
  cmcon0 : Nat
  intcon : Nat
  pie1 : Nat
  pir1 : Nat
  trisa : Nat
  trisc : Nat
  ansel : Nat
  porta : Nat
  portc : Nat
  baudctl : Nat
  txsta : Nat
  rcsta : Nat
  spbrgh : Nat
  spbrg : Nat
  rcreg : Nat
  bRunning : Nat
  bSynchCount : Nat
  bRestartCount : Nat
deriving DecidableEq

/-- Pulse length in main-loop iterations: `#define OUTPUT_HIGH_TIME 255`. -/
def OUTPUT_HIGH_TIME : Nat := 255

/-- Level of the Run pin: `#define P_RUN portc.0`. -/
def P_RUN (s : State) : Bool := bitRead s.portc 0

/-- Level of the Sync pin: `#define P_SYNCH portc.1`. -/
def P_SYNCH (s : State) : Bool := bitRead s.portc 1

/-- Level of the Restart pin: `#define P_RESTART portc.2`. -/
def P_RESTART (s : State) : Bool := bitRead s.portc 2

/-- The assignment `P_RUN = v`. -/
def set_P_RUN (v : Bool) (s : State) : State := { s with portc := bitWrite s.portc 0 v }

/-- The assignment `P_SYNCH = v`. -/
def set_P_SYNCH (v : Bool) (s : State) : State := { s with portc := bitWrite s.portc 1 v }

/-- The assignment `P_RESTART = v`. -/
def set_P_RESTART (v : Bool) (s : State) : State := { s with portc := bitWrite s.portc 2 v }

/-! ## The interrupt handler -/

/-- The function `interrupt`: when the serial-receive flag `pir1.5` is set, read the byte
from `rcreg` and act on the four recognised values (the `switch` has no default case).
The handler itself writes neither `pir1` nor `rcreg`, so both are left as they are. -/
def interrupt (s : State) : State :=
  if bitRead s.pir1 5 then
    let b := s.rcreg
    if b = 0xf8 then
      { set_P_SYNCH true s with bSynchCount := OUTPUT_HIGH_TIME }
    else if b = 0xfa then
      { set_P_RUN true (set_P_RESTART true s) with bRestartCount := OUTPUT_HIGH_TIME }
    else if b = 0xfb then
      set_P_RUN true s
    else if b = 0xfc then
      set_P_RUN false s
    else s
  else s

/-! ## Start-up code -/

/-- The function `init_usart`, one register write per source line. -/
def init_usart (s : State) : State :=
  let s := { s with pir1 := bitWrite s.pir1 1 true }
  let s := { s with pir1 := bitWrite s.pir1 5 false }
  let s := { s with pie1 := bitWrite s.pie1 1 false }
  let s := { s with pie1 := bitWrite s.pie1 5 true }
  let s := { s with baudctl := bitWrite s.baudctl 4 false }
  let s := { s with baudctl := bitWrite s.baudctl 3 true }
  let s := { s with baudctl := bitWrite s.baudctl 1 false }
  let s := { s with baudctl := bitWrite s.baudctl 0 false }
  let s := { s with txsta := bitWrite s.txsta 6 false }
  let s := { s with txsta := bitWrite s.txsta 5 true }
  let s := { s with txsta := bitWrite s.txsta 4 false }
  let s := { s with txsta := bitWrite s.txsta 3 false }
  let s := { s with txsta := bitWrite s.txsta 2 false }
  let s := { s with txsta := bitWrite s.txsta 0 false }
  let s := { s with rcsta := bitWrite s.rcsta 7 true }
  let s := { s with rcsta := bitWrite s.rcsta 6 false }
  let s := { s with rcsta := bitWrite s.rcsta 5 true }
  let s := { s with rcsta := bitWrite s.rcsta 4 true }
  let s := { s with spbrgh := 0 }
  { s with spbrg := 15 }

/-- The function `flashLed`: `while(i>0)` raise the Run pin, wait, lower it, wait, `--i`.
The two `delay_ms(100)` calls only pass time and change no register. -/
def flashLed (i : Int) (s : State) : State :=
  if 0 < i then flashLed (i - 1) (set_P_RUN false (set_P_RUN true s)) else s
termination_by i.toNat
decreasing_by omega

/-- The statements of `main` that precede `for(;;)`. -/
def main_init (s : State) : State :=
  let s := { s with osccon := 0b01110001 }
  let s := { s with cmcon0 := 7 }
  let s := { s with intcon := 0b11000000 }
  let s := { s with pie1 := bitWrite s.pie1 5 true }
  let s := { s with trisa := 0b00001000 }
  let s := { s with trisc := 0b01000000 }
  let s := { s with ansel := 0b00000000 }
  let s := { s with porta := 0 }
  let s := { s with portc := 0 }
  let s := init_usart s
  flashLed 3 s

/-- The initialisers of the three globals (`volatile byte bRunning = 0;` and the next two
lines), applied at reset to whatever the registers hold at power-up. -/
def reset (hw : State) : State :=
  { hw with bRunning := 0, bSynchCount := 0, bRestartCount := 0 }

/-- The state in which `main` reaches `for(;;)` when no byte arrived during start-up. -/
def loopEntry (hw : State) : State := main_init (reset hw)

/-! ## The main loop -/

/-- First statement of the loop body:
`if(bSynchCount) { if(!--bSynchCount) P_SYNCH = 0; }`. -/
def decaySynch (s : State) : State :=
  if s.bSynchCount ≠ 0 then
    let s := { s with bSynchCount := (s.bSynchCount + 255) % 256 }
    if s.bSynchCount = 0 then set_P_SYNCH false s else s
  else s

/-- Second statement of the loop body:
`if(bRestartCount) { if(!--bRestartCount) P_RESTART = 0; }`. -/
def decayRestart (s : State) : State :=
  if s.bRestartCount ≠ 0 then
    let s := { s with bRestartCount := (s.bRestartCount + 255) % 256 }
    if s.bRestartCount = 0 then set_P_RESTART false s else s
  else s

/-- One iteration of the `for(;;)` loop of `main`, run without being interrupted. -/
def main_loop (s : State) : State := decayRestart (decaySynch s)

/-! ## Runs -/

/-- What the serial hardware does when a byte arrives: the byte is in `rcreg` and the
receive flag `pir1.5` is set. -/
def deliver (b : Fin 256) (s : State) : State :=
  { s with rcreg := b.val, pir1 := bitWrite s.pir1 5 true }

/-- The Receiver handles byte `b`: the hardware delivers it and `interrupt` runs once. -/
def receive (b : Fin 256) (s : State) : State := interrupt (deliver b s)

/-- An event of a run: a byte handled by the Receiver, or one main-loop iteration. -/
inductive Event where
  | rx (b : Fin 256)
  | tick
deriving DecidableEq

/-- Effect of one event on the state. -/
def step (s : State) : Event → State
  | Event.rx b => receive b s
  | Event.tick => main_loop s

/-- Apply a sequence of events, oldest first. -/
def run (evs : List Event) (s : State) : State := evs.foldl step s

/-- Number of main-loop iterations in a sequence of events. -/
def ticks (evs : List Event) : Nat := evs.count Event.tick

/-- A state with every register and global zero, used as a concrete input. -/
def allZero : State :=
  { osccon := 0, cmcon0 := 0, intcon := 0, pie1 := 0, pir1 := 0, trisa := 0, trisc := 0,
    ansel := 0, porta := 0, portc := 0, baudctl := 0, txsta := 0, rcsta := 0, spbrgh := 0,
    spbrg := 0, rcreg := 0, bRunning := 0, bSynchCount := 0, bRestartCount := 0 }

/-! ## Vocabulary of the properties -/

/-- Loop iterations since the most recent byte `trig` (since the start when there is none). -/
def ticksSince (trig : Fin 256) (evs : List Event) : Nat :=
  evs.foldl (fun n e =>
    match e with
    | Event.rx b => if b = trig then 0 else n
    | Event.tick => n + 1) 0

/-- Any two consecutive bytes `trig` of the run are separated by fewer than 255 loop
iterations. -/
def Spaced (trig : Fin 256) (evs : List Event) : Prop :=
  ∀ l1 mid l3, evs = l1 ++ Event.rx trig :: (mid ++ Event.rx trig :: l3) →
    Event.rx trig ∉ mid → ticks mid < 255

/-- The run with every byte other than `trig` erased (loop iterations are kept). -/
def eraseOthers (trig : Fin 256) (evs : List Event) : List Event :=
  evs.filter (fun e =>
    match e with
    | Event.rx b => decide (b = trig)
    | Event.tick => true)

/-- The bytes of the run that are Start, Continue or Stop, in order. -/
def transportBytes (evs : List Event) : List (Fin 256) :=
  evs.filterMap (fun e =>
    match e with
    | Event.rx b => if b = 0xfa ∨ b = 0xfb ∨ b = 0xfc then some b else none
    | Event.tick => none)

/-- The last byte of the run that is Start, Continue or Stop, when there is one. -/
def lastTransport (evs : List Event) : Option (Fin 256) := (transportBytes evs).getLast?

/-! ## One pulse path seen on its own

The Sync and the Restart path are the same machine: a pin and a counter, re-armed by one
byte value and decayed by the loop. The proofs below go through this common view. -/

/-- What an event is to one pulse path. -/
inductive PulseEv where
  | arm
  | tick
  | nop
deriving DecidableEq

/-- How the path triggered by byte `trig` sees an event. -/
def pulseEv (trig : Fin 256) : Event → PulseEv
  | Event.rx b => if b = trig then PulseEv.arm else PulseEv.nop
  | Event.tick => PulseEv.tick

/-- One event on a (pin, counter) pair. -/
def pulseStep (p : Bool × Nat) : PulseEv → Bool × Nat
  | PulseEv.arm => (true, 255)
  | PulseEv.tick =>
    (if p.2 ≠ 0 ∧ (p.2 + 255) % 256 = 0 then false else p.1,
     if p.2 ≠ 0 then (p.2 + 255) % 256 else p.2)
  | PulseEv.nop => p

/-- A run of events on a (pin, counter) pair. -/
def pulseRun (trig : Fin 256) (evs : List Event) (p : Bool × Nat) : Bool × Nat :=
  evs.foldl (fun q e => pulseStep q (pulseEv trig e)) p

/-- The Sync path of a state. -/
def syncView (s : State) : Bool × Nat := (P_SYNCH s, s.bSynchCount)

/-- The Restart path of a state. -/
def restartView (s : State) : Bool × Nat := (P_RESTART s, s.bRestartCount)

/-- One event on the level of the Run pin. -/
def runPinStep (r : Bool) : Event → Bool
  | Event.rx b => if b = 0xfa ∨ b = 0xfb then true else if b = 0xfc then false else r
  | Event.tick => r

/-! ## The main loop, interrupted between two of its statements -/

/-- The Sync statement of the loop body, `if(bSynchCount) { if(!--bSynchCount) P_SYNCH = 0; }`,
with the handler `irq` run at one of its statement boundaries: point 0 is before
`if(bSynchCount)`, point 1 before `if(!--bSynchCount)` (passed when the counter was
nonzero), point 2 before `P_SYNCH = 0` (passed when the decrement gave 0). The result is
`none` when the loop does not pass the point. -/
def decaySynchAt (k : Nat) (irq : State → State) (s : State) : Option State :=
  match k with
  | 0 => some (decaySynch (irq s))
  | 1 =>
    if s.bSynchCount ≠ 0 then
      let s := irq s
      let s := { s with bSynchCount := (s.bSynchCount + 255) % 256 }
      some (if s.bSynchCount = 0 then set_P_SYNCH false s else s)
    else none
  | 2 =>
    if s.bSynchCount ≠ 0 then
      let s := { s with bSynchCount := (s.bSynchCount + 255) % 256 }
      if s.bSynchCount = 0 then some (set_P_SYNCH false (irq s)) else none
    else none
  | _ => none

/-- The Restart statement of the loop body,
`if(bRestartCount) { if(!--bRestartCount) P_RESTART = 0; }`, with the handler `irq` run at
one of its statement boundaries, numbered as in `decaySynchAt`. -/
def decayRestartAt (k : Nat) (irq : State → State) (s : State) : Option State :=
  match k with
  | 0 => some (decayRestart (irq s))
  | 1 =>
    if s.bRestartCount ≠ 0 then
      let s := irq s
      let s := { s with bRestartCount := (s.bRestartCount + 255) % 256 }
      some (if s.bRestartCount = 0 then set_P_RESTART false s else s)
    else none
  | 2 =>
    if s.bRestartCount ≠ 0 then
      let s := { s with bRestartCount := (s.bRestartCount + 255) % 256 }
      if s.bRestartCount = 0 then some (set_P_RESTART false (irq s)) else none
    else none
  | _ => none

/-- One iteration of the `for(;;)` loop with the handler `irq` run once, at statement
boundary `k`: 0, 1, 2 are the points of the Sync statement, 3, 4, 5 those of the Restart
statement (3 is also the end of the Sync statement) and 6 is the end of the iteration. -/
def main_loop_at (k : Nat) (irq : State → State) (s : State) : Option State :=
  if k < 3 then (decaySynchAt k irq s).map decayRestart
  else if k < 6 then decayRestartAt (k - 3) irq (decaySynch s)
  else if k = 6 then some (irq (main_loop s))
  else none

/-! ## The serial clock -/

/-- Oscillator frequency in Hz: `#pragma CLOCK_FREQ 8000000`. -/
def CLOCK_FREQ : Nat := 8000000

/-- Baud rate of the asynchronous serial port for BRG16 = 1 and BRGH = 0, as a function of
the oscillator frequency and of the 16-bit divisor `n` held in SPBRGH:SPBRG:
Fosc / (16 * (n + 1)). -/
def baudRate (fosc n : Nat) : Nat := fosc / (16 * (n + 1))

/-! ## The pin writes of the start-up diagnostic -/

/-- The three output pins. -/
inductive Pin where
  | run
  | synch
  | restart
deriving DecidableEq

/-- A write of one pin. -/
def writePin (s : State) (w : Pin × Bool) : State :=
  match w.1 with
  | Pin.run => set_P_RUN w.2 s
  | Pin.synch => set_P_SYNCH w.2 s
  | Pin.restart => set_P_RESTART w.2 s

/-- The function `flashLed` once more, with a log of every pin write it performs, oldest
first. -/
def flashLedLog (i : Int) (s : State) (log : List (Pin × Bool)) : State × List (Pin × Bool) :=
  if 0 < i then
    flashLedLog (i - 1) (set_P_RUN false (set_P_RUN true s))
      (log ++ [(Pin.run, true), (Pin.run, false)])
  else (s, log)
termination_by i.toNat
decreasing_by omega

/-- A sequence of `n` pulses of the Run pin: a write of 1 followed by a write of 0, `n`
times. -/
def runPulses : Nat → List (Pin × Bool)
  | 0 => []
  | n + 1 => (Pin.run, true) :: (Pin.run, false) :: runPulses n

/-- The statements of `main` that precede the call `flashLed(3)`. -/
def main_setup (s : State) : State :=
  let s := { s with osccon := 0b01110001 }
  let s := { s with cmcon0 := 7 }
  let s := { s with intcon := 0b11000000 }
  let s := { s with pie1 := bitWrite s.pie1 5 true }
  let s := { s with trisa := 0b00001000 }
  let s := { s with trisc := 0b01000000 }
  let s := { s with ansel := 0b00000000 }
  let s := { s with porta := 0 }
  let s := { s with portc := 0 }
  init_usart s

/-! # Theorems -/


/-! ## Bits of a register after a bit write -/

theorem bitRead_bitWrite (r k j : Nat) (v : Bool) (hk : k < 8) (hj : j < 8) :
    bitRead (bitWrite r k v) j = if j = k then v else bitRead r j := by
  unfold bitRead bitWrite
  cases v
  · simp only [Bool.false_eq_true, if_false, Nat.testBit_and]
    interval_cases k <;> interval_cases j <;>
      (generalize Nat.testBit r _ = x; cases x <;> decide)
  · simp only [if_true, Nat.testBit_or]
    interval_cases k <;> interval_cases j <;>
      (generalize Nat.testBit r _ = x; cases x <;> decide)

/-! ## Pins and globals after a pin write -/

@[simp] theorem P_RUN_set_P_RUN (v : Bool) (s : State) : P_RUN (set_P_RUN v s) = v := by
  simp [P_RUN, set_P_RUN, bitRead_bitWrite]

@[simp] theorem P_SYNCH_set_P_RUN (v : Bool) (s : State) :
    P_SYNCH (set_P_RUN v s) = P_SYNCH s := by
  simp [P_SYNCH, set_P_RUN, bitRead_bitWrite]

@[simp] theorem P_RESTART_set_P_RUN (v : Bool) (s : State) :
    P_RESTART (set_P_RUN v s) = P_RESTART s := by
  simp [P_RESTART, set_P_RUN, bitRead_bitWrite]

@[simp] theorem P_RUN_set_P_SYNCH (v : Bool) (s : State) :
    P_RUN (set_P_SYNCH v s) = P_RUN s := by
  simp [P_RUN, set_P_SYNCH, bitRead_bitWrite]

@[simp] theorem P_SYNCH_set_P_SYNCH (v : Bool) (s : State) : P_SYNCH (set_P_SYNCH v s) = v := by
  simp [P_SYNCH, set_P_SYNCH, bitRead_bitWrite]

@[simp] theorem P_RESTART_set_P_SYNCH (v : Bool) (s : State) :
    P_RESTART (set_P_SYNCH v s) = P_RESTART s := by
  simp [P_RESTART, set_P_SYNCH, bitRead_bitWrite]

@[simp] theorem P_RUN_set_P_RESTART (v : Bool) (s : State) :
    P_RUN (set_P_RESTART v s) = P_RUN s := by
  simp [P_RUN, set_P_RESTART, bitRead_bitWrite]

@[simp] theorem P_SYNCH_set_P_RESTART (v : Bool) (s : State) :
    P_SYNCH (set_P_RESTART v s) = P_SYNCH s := by
  simp [P_SYNCH, set_P_RESTART, bitRead_bitWrite]

@[simp] theorem P_RESTART_set_P_RESTART (v : Bool) (s : State) :
    P_RESTART (set_P_RESTART v s) = v := by
  simp [P_RESTART, set_P_RESTART, bitRead_bitWrite]

/-! ## What one Receiver invocation does to each pin and global -/

theorem deliver_flag (b : Fin 256) (s : State) : bitRead (deliver b s).pir1 5 = true := by
  simp [deliver, bitRead_bitWrite]

theorem byte_val_eq (b : Fin 256) (n : Nat) (hn : n < 256) :
    b.val = n ↔ b = ⟨n, hn⟩ := by
  constructor
  · intro h; exact Fin.ext h
  · intro h; rw [h]

theorem receive_eq (b : Fin 256) (s : State) :
    receive b s =
      if b = 0xf8 then
        { set_P_SYNCH true (deliver b s) with bSynchCount := 255 }
      else if b = 0xfa then
        { set_P_RUN true (set_P_RESTART true (deliver b s)) with bRestartCount := 255 }
      else if b = 0xfb then set_P_RUN true (deliver b s)
      else if b = 0xfc then set_P_RUN false (deliver b s)
      else deliver b s := by
  have h1 : (deliver b s).rcreg = b.val := rfl
  have e1 : b.val = 0xf8 ↔ b = 0xf8 := byte_val_eq b 0xf8 (by decide)
  have e2 : b.val = 0xfa ↔ b = 0xfa := byte_val_eq b 0xfa (by decide)
  have e3 : b.val = 0xfb ↔ b = 0xfb := byte_val_eq b 0xfb (by decide)
  have e4 : b.val = 0xfc ↔ b = 0xfc := byte_val_eq b 0xfc (by decide)
  simp only [receive, interrupt, deliver_flag, if_true, h1, e1, e2, e3, e4, OUTPUT_HIGH_TIME]

theorem deliver_pins (b : Fin 256) (s : State) :
    P_RUN (deliver b s) = P_RUN s ∧ P_SYNCH (deliver b s) = P_SYNCH s ∧
      P_RESTART (deliver b s) = P_RESTART s := ⟨rfl, rfl, rfl⟩

theorem P_SYNCH_receive (b : Fin 256) (s : State) :
    P_SYNCH (receive b s) = if b = 0xf8 then true else P_SYNCH s := by
  rw [receive_eq]
  split_ifs <;> first | rfl | simp [P_SYNCH, set_P_SYNCH, set_P_RUN, set_P_RESTART, deliver, bitRead_bitWrite]

theorem bSynchCount_receive (b : Fin 256) (s : State) :
    (receive b s).bSynchCount = if b = 0xf8 then 255 else s.bSynchCount := by
  rw [receive_eq]
  by_cases h1 : b = 0xf8
  · subst h1; rfl
  by_cases h2 : b = 0xfa
  · subst h2; rfl
  by_cases h3 : b = 0xfb
  · subst h3; rfl
  by_cases h4 : b = 0xfc
  · subst h4; rfl
  · simp only [h1, h2, h3, h4, if_false]; rfl

theorem P_RESTART_receive (b : Fin 256) (s : State) :
    P_RESTART (receive b s) = if b = 0xfa then true else P_RESTART s := by
  rw [receive_eq]
  by_cases h1 : b = 0xf8
  · subst h1
    simp [P_RESTART, set_P_SYNCH, deliver, bitRead_bitWrite]
  by_cases h2 : b = 0xfa
  · subst h2
    simp [P_RESTART, set_P_RUN, set_P_RESTART, deliver, bitRead_bitWrite]
  by_cases h3 : b = 0xfb
  · subst h3
    simp [P_RESTART, set_P_RUN, deliver, bitRead_bitWrite]
  by_cases h4 : b = 0xfc
  · subst h4
    simp [P_RESTART, set_P_RUN, deliver, bitRead_bitWrite]
  · simp [h1, h2, h3, h4, P_RESTART, deliver]

theorem bRestartCount_receive (b : Fin 256) (s : State) :
    (receive b s).bRestartCount = if b = 0xfa then 255 else s.bRestartCount := by
  rw [receive_eq]
  by_cases h1 : b = 0xf8
  · subst h1; rfl
  by_cases h2 : b = 0xfa
  · subst h2; rfl
  by_cases h3 : b = 0xfb
  · subst h3; rfl
  by_cases h4 : b = 0xfc
  · subst h4; rfl
  · simp only [h1, h2, h3, h4, if_false]; rfl

theorem P_RUN_receive (b : Fin 256) (s : State) :
    P_RUN (receive b s) =
      if b = 0xfa ∨ b = 0xfb then true else if b = 0xfc then false else P_RUN s := by
  rw [receive_eq]
  by_cases h1 : b = 0xf8
  · subst h1
    simp [P_RUN, set_P_SYNCH, deliver, bitRead_bitWrite]
  by_cases h2 : b = 0xfa
  · subst h2
    simp [P_RUN, set_P_RUN, set_P_RESTART, deliver, bitRead_bitWrite]
  by_cases h3 : b = 0xfb
  · subst h3
    simp [P_RUN, set_P_RUN, deliver, bitRead_bitWrite]
  by_cases h4 : b = 0xfc
  · subst h4
    simp [P_RUN, set_P_RUN, deliver, bitRead_bitWrite]
  · simp [h1, h2, h3, h4, P_RUN, deliver]

theorem bRunning_receive (b : Fin 256) (s : State) : (receive b s).bRunning = s.bRunning := by
  rw [receive_eq]
  by_cases h1 : b = 0xf8
  · subst h1; rfl
  by_cases h2 : b = 0xfa
  · subst h2; rfl
  by_cases h3 : b = 0xfb
  · subst h3; rfl
  by_cases h4 : b = 0xfc
  · subst h4; rfl
  · simp only [h1, h2, h3, h4, if_false]; rfl

/-! ## What one main-loop iteration does to each pin and global -/

theorem decaySynch_eq (s : State) :
    decaySynch s =
      if s.bSynchCount = 0 then s
      else if (s.bSynchCount + 255) % 256 = 0 then
        set_P_SYNCH false { s with bSynchCount := (s.bSynchCount + 255) % 256 }
      else { s with bSynchCount := (s.bSynchCount + 255) % 256 } := by
  unfold decaySynch
  by_cases h : s.bSynchCount = 0
  · simp [h]
  · simp [h]

theorem decayRestart_eq (s : State) :
    decayRestart s =
      if s.bRestartCount = 0 then s
      else if (s.bRestartCount + 255) % 256 = 0 then
        set_P_RESTART false { s with bRestartCount := (s.bRestartCount + 255) % 256 }
      else { s with bRestartCount := (s.bRestartCount + 255) % 256 } := by
  unfold decayRestart
  by_cases h : s.bRestartCount = 0
  · simp [h]
  · simp [h]

theorem decaySynch_frame (s : State) :
    (decaySynch s).bRestartCount = s.bRestartCount ∧
      (decaySynch s).bRunning = s.bRunning ∧
      P_RESTART (decaySynch s) = P_RESTART s ∧ P_RUN (decaySynch s) = P_RUN s := by
  rw [decaySynch_eq]
  split_ifs
  · exact ⟨rfl, rfl, rfl, rfl⟩
  · refine ⟨rfl, rfl, ?_, ?_⟩
    · rw [P_RESTART_set_P_SYNCH]; rfl
    · rw [P_RUN_set_P_SYNCH]; rfl
  · exact ⟨rfl, rfl, rfl, rfl⟩

theorem decayRestart_frame (s : State) :
    (decayRestart s).bSynchCount = s.bSynchCount ∧
      (decayRestart s).bRunning = s.bRunning ∧
      P_SYNCH (decayRestart s) = P_SYNCH s ∧ P_RUN (decayRestart s) = P_RUN s := by
  rw [decayRestart_eq]
  split_ifs
  · exact ⟨rfl, rfl, rfl, rfl⟩
  · refine ⟨rfl, rfl, ?_, ?_⟩
    · rw [P_SYNCH_set_P_RESTART]; rfl
    · rw [P_RUN_set_P_RESTART]; rfl
  · exact ⟨rfl, rfl, rfl, rfl⟩

theorem bSynchCount_decaySynch (s : State) :
    (decaySynch s).bSynchCount =
      if s.bSynchCount ≠ 0 then (s.bSynchCount + 255) % 256 else s.bSynchCount := by
  rw [decaySynch_eq]
  split_ifs <;> first | rfl | contradiction

theorem P_SYNCH_decaySynch (s : State) :
    P_SYNCH (decaySynch s) =
      if s.bSynchCount ≠ 0 ∧ (s.bSynchCount + 255) % 256 = 0 then false else P_SYNCH s := by
  rw [decaySynch_eq]
  by_cases h : s.bSynchCount = 0
  · simp [h]
  · by_cases h2 : (s.bSynchCount + 255) % 256 = 0
    · simp only [h, h2, if_false, if_true, P_SYNCH_set_P_SYNCH, ne_eq, not_false_eq_true,
        and_self]
    · simp only [h, h2, if_false, ne_eq, not_false_eq_true, and_false]
      rfl

theorem bRestartCount_decayRestart (s : State) :
    (decayRestart s).bRestartCount =
      if s.bRestartCount ≠ 0 then (s.bRestartCount + 255) % 256 else s.bRestartCount := by
  rw [decayRestart_eq]
  split_ifs <;> first | rfl | contradiction

theorem P_RESTART_decayRestart (s : State) :
    P_RESTART (decayRestart s) =
      if s.bRestartCount ≠ 0 ∧ (s.bRestartCount + 255) % 256 = 0 then false
      else P_RESTART s := by
  rw [decayRestart_eq]
  by_cases h : s.bRestartCount = 0
  · simp [h]
  · by_cases h2 : (s.bRestartCount + 255) % 256 = 0
    · simp only [h, h2, if_false, if_true, P_RESTART_set_P_RESTART, ne_eq, not_false_eq_true,
        and_self]
    · simp only [h, h2, if_false, ne_eq, not_false_eq_true, and_false]
      rfl

theorem bSynchCount_main_loop (s : State) :
    (main_loop s).bSynchCount =
      if s.bSynchCount ≠ 0 then (s.bSynchCount + 255) % 256 else s.bSynchCount := by
  unfold main_loop
  rw [(decayRestart_frame _).1, bSynchCount_decaySynch]

theorem P_SYNCH_main_loop (s : State) :
    P_SYNCH (main_loop s) =
      if s.bSynchCount ≠ 0 ∧ (s.bSynchCount + 255) % 256 = 0 then false else P_SYNCH s := by
  unfold main_loop
  rw [(decayRestart_frame _).2.2.1, P_SYNCH_decaySynch]

theorem bRestartCount_main_loop (s : State) :
    (main_loop s).bRestartCount =
      if s.bRestartCount ≠ 0 then (s.bRestartCount + 255) % 256 else s.bRestartCount := by
  unfold main_loop
  rw [bRestartCount_decayRestart, (decaySynch_frame _).1]

theorem P_RESTART_main_loop (s : State) :
    P_RESTART (main_loop s) =
      if s.bRestartCount ≠ 0 ∧ (s.bRestartCount + 255) % 256 = 0 then false
      else P_RESTART s := by
  unfold main_loop
  rw [P_RESTART_decayRestart, (decaySynch_frame _).1, (decaySynch_frame _).2.2.1]

theorem P_RUN_main_loop (s : State) : P_RUN (main_loop s) = P_RUN s := by
  unfold main_loop
  rw [(decayRestart_frame _).2.2.2, (decaySynch_frame _).2.2.2]

theorem bRunning_main_loop (s : State) : (main_loop s).bRunning = s.bRunning := by
  unfold main_loop
  rw [(decayRestart_frame _).2.1, (decaySynch_frame _).2.1]

/-! ## Runs, and the views of a run -/

theorem run_nil (s : State) : run [] s = s := rfl

theorem run_cons (e : Event) (evs : List Event) (s : State) :
    run (e :: evs) s = run evs (step s e) := rfl

theorem run_append (l1 l2 : List Event) (s : State) :
    run (l1 ++ l2) s = run l2 (run l1 s) := by
  simp [run, List.foldl_append]

theorem ticks_nil : ticks [] = 0 := rfl

theorem ticks_cons_tick (evs : List Event) : ticks (Event.tick :: evs) = ticks evs + 1 := by
  simp [ticks]

theorem ticks_cons_rx (b : Fin 256) (evs : List Event) :
    ticks (Event.rx b :: evs) = ticks evs := by
  simp [ticks]

theorem ticks_append (l1 l2 : List Event) : ticks (l1 ++ l2) = ticks l1 + ticks l2 := by
  simp [ticks]

theorem syncView_step (s : State) (e : Event) :
    syncView (step s e) = pulseStep (syncView s) (pulseEv 0xf8 e) := by
  cases e with
  | rx b =>
    simp only [step, syncView, pulseEv, P_SYNCH_receive, bSynchCount_receive]
    split_ifs <;> rfl
  | tick =>
    simp only [step, syncView, pulseEv, pulseStep, P_SYNCH_main_loop, bSynchCount_main_loop]

theorem restartView_step (s : State) (e : Event) :
    restartView (step s e) = pulseStep (restartView s) (pulseEv 0xfa e) := by
  cases e with
  | rx b =>
    simp only [step, restartView, pulseEv, P_RESTART_receive, bRestartCount_receive]
    split_ifs <;> rfl
  | tick =>
    simp only [step, restartView, pulseEv, pulseStep, P_RESTART_main_loop,
      bRestartCount_main_loop]

theorem P_RUN_step (s : State) (e : Event) : P_RUN (step s e) = runPinStep (P_RUN s) e := by
  cases e with
  | rx b => simp only [step, runPinStep, P_RUN_receive]
  | tick => simp only [step, runPinStep, P_RUN_main_loop]

theorem bRunning_step (s : State) (e : Event) : (step s e).bRunning = s.bRunning := by
  cases e with
  | rx b => exact bRunning_receive b s
  | tick => exact bRunning_main_loop s

theorem view_run (view : State → Bool × Nat) (trig : Fin 256)
    (hsim : ∀ s e, view (step s e) = pulseStep (view s) (pulseEv trig e))
    (evs : List Event) (s : State) : view (run evs s) = pulseRun trig evs (view s) := by
  induction evs generalizing s with
  | nil => rfl
  | cons e es ih =>
    rw [run_cons, ih, hsim]
    rfl

theorem P_RUN_run (evs : List Event) (s : State) :
    P_RUN (run evs s) = evs.foldl runPinStep (P_RUN s) := by
  induction evs generalizing s with
  | nil => rfl
  | cons e es ih =>
    rw [run_cons, ih, P_RUN_step]
    rfl

theorem bRunning_run (evs : List Event) (s : State) : (run evs s).bRunning = s.bRunning := by
  induction evs generalizing s with
  | nil => rfl
  | cons e es ih => rw [run_cons, ih, bRunning_step]

/-! ## The pulse machine -/

theorem pulseRun_cons (trig : Fin 256) (e : Event) (evs : List Event) (p : Bool × Nat) :
    pulseRun trig (e :: evs) p = pulseRun trig evs (pulseStep p (pulseEv trig e)) := rfl

theorem pulseEv_ne (trig b : Fin 256) (h : Event.rx b ≠ Event.rx trig) :
    pulseEv trig (Event.rx b) = PulseEv.nop := by
  have hb : b ≠ trig := fun hb => h (by rw [hb])
  simp [pulseEv, hb]

/-- With the counter at 0 and no re-arming byte, the path does not move. -/
theorem pulseRun_idle (trig : Fin 256) (evs : List Event) (pin : Bool)
    (hno : ∀ e ∈ evs, e ≠ Event.rx trig) : pulseRun trig evs (pin, 0) = (pin, 0) := by
  induction evs with
  | nil => rfl
  | cons e es ih =>
    have hes : ∀ x ∈ es, x ≠ Event.rx trig := fun x hx => hno x (List.mem_cons_of_mem _ hx)
    have he : e ≠ Event.rx trig := hno e (List.mem_cons_self _ _)
    rw [pulseRun_cons]
    cases e with
    | rx b => rw [pulseEv_ne trig b he]; exact ih hes
    | tick =>
      have h0 : pulseStep (pin, 0) (pulseEv trig Event.tick) = (pin, 0) := by
        simp [pulseStep, pulseEv]
      rw [h0]; exact ih hes

/-- An armed path with counter `c` and no re-arming byte: after `n` loop iterations the pin
is high exactly when `n < c`, and the counter is `c - n`. -/
theorem pulseRun_decay (trig : Fin 256) (evs : List Event) (c : Nat)
    (hno : ∀ e ∈ evs, e ≠ Event.rx trig) (hc0 : 0 < c) (hc : c ≤ 255) :
    pulseRun trig evs (true, c) = (decide (ticks evs < c), c - ticks evs) := by
  induction evs generalizing c with
  | nil => simp [pulseRun, ticks_nil, hc0]
  | cons e es ih =>
    have hes : ∀ x ∈ es, x ≠ Event.rx trig := fun x hx => hno x (List.mem_cons_of_mem _ hx)
    have he : e ≠ Event.rx trig := hno e (List.mem_cons_self _ _)
    rw [pulseRun_cons]
    cases e with
    | rx b =>
      rw [pulseEv_ne trig b he, ticks_cons_rx]
      exact ih c hes hc0 hc
    | tick =>
      rw [ticks_cons_tick]
      have hm : (c + 255) % 256 = c - 1 := by omega
      by_cases h1 : c = 1
      · subst h1
        have h0 : pulseStep (true, 1) (pulseEv trig Event.tick) = (false, 0) := by
          simp [pulseStep, pulseEv]
        rw [h0, pulseRun_idle trig es false hes]
        simp
      · have h0 : pulseStep (true, c) (pulseEv trig Event.tick) = (true, c - 1) := by
          have hne : c ≠ 0 := by omega
          have hne1 : c - 1 ≠ 0 := by omega
          simp [pulseStep, pulseEv, hm, hne, hne1]
        rw [h0, ih (c - 1) hes (by omega) (by omega)]
        have e1 : decide (ticks es < c - 1) = decide (ticks es + 1 < c) := by
          apply decide_eq_decide.mpr; omega
        have e2 : c - 1 - ticks es = c - (ticks es + 1) := by omega
        rw [e1, e2]

/-! ## The handler on a state whose receive flag is set -/

theorem interrupt_f8 (s : State) (hflag : bitRead s.pir1 5 = true) (hbyte : s.rcreg = 0xf8) :
    interrupt s = { set_P_SYNCH true s with bSynchCount := 255 } := by
  simp [interrupt, hflag, hbyte, OUTPUT_HIGH_TIME]

theorem interrupt_fa (s : State) (hflag : bitRead s.pir1 5 = true) (hbyte : s.rcreg = 0xfa) :
    interrupt s = { set_P_RUN true (set_P_RESTART true s) with bRestartCount := 255 } := by
  simp [interrupt, hflag, hbyte, OUTPUT_HIGH_TIME]

theorem interrupt_fb (s : State) (hflag : bitRead s.pir1 5 = true) (hbyte : s.rcreg = 0xfb) :
    interrupt s = set_P_RUN true s := by
  simp [interrupt, hflag, hbyte]

theorem interrupt_fc (s : State) (hflag : bitRead s.pir1 5 = true) (hbyte : s.rcreg = 0xfc) :
    interrupt s = set_P_RUN false s := by
  simp [interrupt, hflag, hbyte]

theorem runPin_stays_high (evs : List Event) (hno : ∀ e ∈ evs, e ≠ Event.rx 0xfc) :
    evs.foldl runPinStep true = true := by
  induction evs with
  | nil => rfl
  | cons e es ih =>
    have hes : ∀ x ∈ es, x ≠ Event.rx 0xfc := fun x hx => hno x (List.mem_cons_of_mem _ hx)
    have he : e ≠ Event.rx 0xfc := hno e (List.mem_cons_self _ _)
    rw [List.foldl_cons]
    cases e with
    | tick => exact ih hes
    | rx b =>
      have hb : b ≠ 0xfc := fun hb => he (by rw [hb])
      have h1 : runPinStep true (Event.rx b) = true := by
        simp [runPinStep, hb]
      rw [h1]; exact ih hes

/-! ## C1: width of the Sync pulse -/

/-- C1. For every state whose receive flag is set and whose receive register holds 0xF8,
`interrupt` leaves the Sync pin high and `bSynchCount` = 255. If a run follows in which no
further 0xF8 is handled (other bytes may be handled anywhere in it), the Sync pin is high
as long as the run has fewer than 255 main-loop iterations, and it is low with
`bSynchCount` = 0 when the run has exactly 255. -/
theorem sync_pulse_width (s : State) (evs : List Event)
    (hflag : bitRead s.pir1 5 = true) (hbyte : s.rcreg = 0xf8)
    (hno : ∀ e ∈ evs, e ≠ Event.rx 0xf8) :
    P_SYNCH (interrupt s) = true ∧ (interrupt s).bSynchCount = 255 ∧
      (ticks evs < 255 → P_SYNCH (run evs (interrupt s)) = true) ∧
      (ticks evs = 255 →
        P_SYNCH (run evs (interrupt s)) = false ∧ (run evs (interrupt s)).bSynchCount = 0) := by
  have hv : syncView (interrupt s) = (true, 255) := by
    rw [interrupt_f8 s hflag hbyte]
    simp [syncView, P_SYNCH, set_P_SYNCH, bitRead_bitWrite]
  have hr : syncView (run evs (interrupt s)) = (decide (ticks evs < 255), 255 - ticks evs) := by
    rw [view_run syncView 0xf8 syncView_step, hv]
    exact pulseRun_decay 0xf8 evs 255 hno (by omega) (by omega)
  have hp : P_SYNCH (run evs (interrupt s)) = decide (ticks evs < 255) :=
    congrArg Prod.fst hr
  have hcnt : (run evs (interrupt s)).bSynchCount = 255 - ticks evs := congrArg Prod.snd hr
  refine ⟨congrArg Prod.fst hv, congrArg Prod.snd hv, ?_, ?_⟩
  · intro hn
    rw [hp]; exact decide_eq_true hn
  · intro hn
    rw [hp, hcnt, hn]
    exact ⟨by decide, by decide⟩

/-- C1 at a concrete run: 0xF8 delivered to the all-zero state, then an iteration, a Start
byte and another iteration; the Sync pin is still high. -/
theorem sync_pulse_width_witness :
    bitRead (deliver 0xf8 allZero).pir1 5 = true ∧ (deliver 0xf8 allZero).rcreg = 0xf8 ∧
      (∀ e ∈ [Event.tick, Event.rx 0xfa, Event.tick], e ≠ Event.rx 0xf8) ∧
      P_SYNCH (run [Event.tick, Event.rx 0xfa, Event.tick]
        (interrupt (deliver 0xf8 allZero))) = true :=
  ⟨by decide, by decide, by decide,
    (sync_pulse_width (deliver 0xf8 allZero) [Event.tick, Event.rx 0xfa, Event.tick]
      (by decide) (by decide) (by decide)).2.2.1 (by decide)⟩

/-! ## C2: Start -/

/-- C2. For every state whose receive flag is set and whose receive register holds 0xFA,
`interrupt` leaves the Restart pin high, the Run pin high and `bRestartCount` = 255, and
leaves the Sync pin and `bSynchCount` as they were. In a following run with no further
0xFA the Restart pin is high as long as the run has fewer than 255 main-loop iterations and
low with `bRestartCount` = 0 when it has exactly 255; in a following run with no 0xFC the
Run pin is high at the end. -/
theorem start_pulse (s : State) (evs : List Event)
    (hflag : bitRead s.pir1 5 = true) (hbyte : s.rcreg = 0xfa)
    (hno : ∀ e ∈ evs, e ≠ Event.rx 0xfa) :
    P_RESTART (interrupt s) = true ∧ P_RUN (interrupt s) = true ∧
      (interrupt s).bRestartCount = 255 ∧
      P_SYNCH (interrupt s) = P_SYNCH s ∧ (interrupt s).bSynchCount = s.bSynchCount ∧
      (ticks evs < 255 → P_RESTART (run evs (interrupt s)) = true) ∧
      (ticks evs = 255 →
        P_RESTART (run evs (interrupt s)) = false ∧
          (run evs (interrupt s)).bRestartCount = 0) ∧
      (∀ evs2 : List Event, (∀ e ∈ evs2, e ≠ Event.rx 0xfc) →
        P_RUN (run evs2 (interrupt s)) = true) := by
  have hi := interrupt_fa s hflag hbyte
  have hv : restartView (interrupt s) = (true, 255) := by
    rw [hi]
    simp [restartView, P_RESTART, set_P_RESTART, set_P_RUN, bitRead_bitWrite]
  have hrun : P_RUN (interrupt s) = true := by
    rw [hi]
    simp [P_RUN, set_P_RESTART, set_P_RUN, bitRead_bitWrite]
  have hsync : P_SYNCH (interrupt s) = P_SYNCH s := by
    rw [hi]
    simp [P_SYNCH, set_P_RESTART, set_P_RUN, bitRead_bitWrite]
  have hr : restartView (run evs (interrupt s)) =
      (decide (ticks evs < 255), 255 - ticks evs) := by
    rw [view_run restartView 0xfa restartView_step, hv]
    exact pulseRun_decay 0xfa evs 255 hno (by omega) (by omega)
  have hp : P_RESTART (run evs (interrupt s)) = decide (ticks evs < 255) :=
    congrArg Prod.fst hr
  have hcnt : (run evs (interrupt s)).bRestartCount = 255 - ticks evs :=
    congrArg Prod.snd hr
  refine ⟨congrArg Prod.fst hv, hrun, congrArg Prod.snd hv, hsync, ?_, ?_, ?_, ?_⟩
  · rw [hi]; rfl
  · intro hn
    rw [hp]; exact decide_eq_true hn
  · intro hn
    rw [hp, hcnt, hn]
    exact ⟨by decide, by decide⟩
  · intro evs2 h2
    rw [P_RUN_run, hrun]
    exact runPin_stays_high evs2 h2

/-- C2 at a concrete run: 0xFA delivered to the all-zero state, then an iteration, a Clock
byte and another iteration; the Restart pin is still high. -/
theorem start_pulse_witness :
    bitRead (deliver 0xfa allZero).pir1 5 = true ∧ (deliver 0xfa allZero).rcreg = 0xfa ∧
      (∀ e ∈ [Event.tick, Event.rx 0xf8, Event.tick], e ≠ Event.rx 0xfa) ∧
      P_RESTART (run [Event.tick, Event.rx 0xf8, Event.tick]
        (interrupt (deliver 0xfa allZero))) = true :=
  ⟨by decide, by decide, by decide,
    (start_pulse (deliver 0xfa allZero) [Event.tick, Event.rx 0xf8, Event.tick]
      (by decide) (by decide) (by decide)).2.2.2.2.2.1 (by decide)⟩

/-! ## The state at loop entry -/

theorem flashLed_three (s : State) :
    flashLed 3 s = set_P_RUN false (set_P_RUN true (set_P_RUN false (set_P_RUN true
      (set_P_RUN false (set_P_RUN true s))))) := by
  simp [flashLed]

theorem loopEntry_portc (hw : State) : (loopEntry hw).portc = 0 := by
  simp [loopEntry, main_init, flashLed_three, set_P_RUN, init_usart, reset, bitWrite]

theorem loopEntry_globals (hw : State) :
    (loopEntry hw).bRunning = 0 ∧ (loopEntry hw).bSynchCount = 0 ∧
      (loopEntry hw).bRestartCount = 0 := by
  simp [loopEntry, main_init, flashLed_three, set_P_RUN, init_usart, reset]

theorem loopEntry_pins (hw : State) :
    P_RUN (loopEntry hw) = false ∧ P_SYNCH (loopEntry hw) = false ∧
      P_RESTART (loopEntry hw) = false := by
  simp [P_RUN, P_SYNCH, P_RESTART, loopEntry_portc, bitRead]

/-! ## C3: the Run pin -/

theorem runPin_fold (evs : List Event) (r : Bool) :
    evs.foldl runPinStep r =
      match lastTransport evs with
      | some b => decide (b = 0xfa ∨ b = 0xfb)
      | none => r := by
  induction evs generalizing r with
  | nil => rfl
  | cons e es ih =>
    rw [List.foldl_cons, ih]
    cases e with
    | tick => rfl
    | rx b =>
      by_cases hb : b = 0xfa ∨ b = 0xfb ∨ b = 0xfc
      · have ht : transportBytes (Event.rx b :: es) = b :: transportBytes es := by
          simp [transportBytes, hb]
        have hl : lastTransport (Event.rx b :: es) = (lastTransport es).getD b := by
          simp only [lastTransport, ht, List.getLast?_cons]
        rw [hl]
        cases hlt : lastTransport es with
        | some y => rfl
        | none =>
          simp only [Option.getD_none, runPinStep]
          rcases hb with h | h | h <;> subst h <;> simp
      · have ht : transportBytes (Event.rx b :: es) = transportBytes es := by
          simp [transportBytes, hb]
        have hl : lastTransport (Event.rx b :: es) = lastTransport es := by
          simp only [lastTransport, ht]
        have hstep : runPinStep r (Event.rx b) = r := by
          have h1 : ¬ (b = 0xfa ∨ b = 0xfb) := fun h => hb (by tauto)
          have h2 : ¬ b = 0xfc := fun h => hb (by tauto)
          simp [runPinStep, h1, h2]
        rw [hl, hstep]

theorem P_RUN_iterate (s : State) (n : Nat) : P_RUN (main_loop^[n] s) = P_RUN s := by
  induction n with
  | zero => rfl
  | succ k ih => rw [Function.iterate_succ_apply', P_RUN_main_loop, ih]

/-- C3. After any sequence of handled bytes and main-loop iterations applied to the
loop-entry state, the Run pin is high when the last byte among 0xFA, 0xFB, 0xFC in the
sequence is 0xFA or 0xFB, low when it is 0xFC, and low when the sequence has no such byte.
Any number of main-loop iterations leaves the Run pin of any state as it was. After
0xFA, 0xF8, 0xFC, 0xFB the Run pin is high. -/
theorem run_pin_last_transport (hw : State) (evs : List Event) :
    (lastTransport evs = some 0xfa ∨ lastTransport evs = some 0xfb →
        P_RUN (run evs (loopEntry hw)) = true) ∧
      (lastTransport evs = some 0xfc → P_RUN (run evs (loopEntry hw)) = false) ∧
      (lastTransport evs = none → P_RUN (run evs (loopEntry hw)) = false) ∧
      (∀ (s : State) (n : Nat), P_RUN (main_loop^[n] s) = P_RUN s) ∧
      P_RUN (run [Event.rx 0xfa, Event.rx 0xf8, Event.rx 0xfc, Event.rx 0xfb]
        (loopEntry hw)) = true := by
  have key : ∀ l : List Event, P_RUN (run l (loopEntry hw)) =
      match lastTransport l with
      | some b => decide (b = 0xfa ∨ b = 0xfb)
      | none => false := by
    intro l
    rw [P_RUN_run, (loopEntry_pins hw).1]
    exact runPin_fold l false
  refine ⟨?_, ?_, ?_, P_RUN_iterate, ?_⟩
  · intro h
    rw [key]
    rcases h with h | h <;> rw [h] <;> decide
  · intro h
    rw [key, h]; decide
  · intro h
    rw [key, h]
  · rw [key]; decide

/-- C3 at a concrete run from the loop-entry state reached from the all-zero power-up
state: the last transport byte of 0xFA, iteration, 0xFC, 0xF8 is 0xFC and Run is low. -/
theorem run_pin_last_transport_witness :
    lastTransport [Event.rx 0xfa, Event.tick, Event.rx 0xfc, Event.rx 0xf8] = some 0xfc ∧
      P_RUN (run [Event.rx 0xfa, Event.tick, Event.rx 0xfc, Event.rx 0xf8]
        (loopEntry allZero)) = false :=
  ⟨by decide,
    (run_pin_last_transport allZero
      [Event.rx 0xfa, Event.tick, Event.rx 0xfc, Event.rx 0xf8]).2.1 (by decide)⟩

/-! ## C4: bytes the Receiver ignores -/

/-- C4. For every byte `b` in 0..255 other than 0xF8, 0xFA, 0xFB and 0xFC and every state,
the Receiver handling `b` leaves the Run, Sync and Restart pins, `bSynchCount`,
`bRestartCount` and `bRunning` as they were; `interrupt` returns the state it was given. -/
theorem ignored_bytes (b : Fin 256) (s : State)
    (h8 : b ≠ 0xf8) (ha : b ≠ 0xfa) (hb : b ≠ 0xfb) (hc : b ≠ 0xfc) :
    P_RUN (receive b s) = P_RUN s ∧ P_SYNCH (receive b s) = P_SYNCH s ∧
      P_RESTART (receive b s) = P_RESTART s ∧
      (receive b s).bSynchCount = s.bSynchCount ∧
      (receive b s).bRestartCount = s.bRestartCount ∧
      (receive b s).bRunning = s.bRunning ∧
      interrupt (deliver b s) = deliver b s := by
  have hr : receive b s = deliver b s := by
    rw [receive_eq]
    simp only [h8, ha, hb, hc, if_false]
  refine ⟨?_, ?_, ?_, ?_, ?_, ?_, hr⟩ <;> rw [hr] <;> rfl

/-- C4 at a concrete input: byte 0x90 handled in a state where all three pins are high
and both timers run. -/
theorem ignored_bytes_witness :
    ((0x90 : Fin 256) ≠ 0xf8 ∧ (0x90 : Fin 256) ≠ 0xfa ∧ (0x90 : Fin 256) ≠ 0xfb ∧
        (0x90 : Fin 256) ≠ 0xfc) ∧
      P_SYNCH (receive 0x90 (run [Event.rx 0xf8, Event.rx 0xfa, Event.tick] allZero)) =
        P_SYNCH (run [Event.rx 0xf8, Event.rx 0xfa, Event.tick] allZero) :=
  ⟨by decide,
    (ignored_bytes 0x90 (run [Event.rx 0xf8, Event.rx 0xfa, Event.tick] allZero)
      (by decide) (by decide) (by decide) (by decide)).2.1⟩

/-! ## C5: Stop -/

/-- C5. For every state whose receive flag is set and whose receive register holds 0xFC,
whatever `bSynchCount` and `bRestartCount` are, `interrupt` leaves the Run pin low and
leaves both pulse timers and the Sync and Restart pins as they were. -/
theorem stop_immediate (s : State)
    (hflag : bitRead s.pir1 5 = true) (hbyte : s.rcreg = 0xfc) :
    P_RUN (interrupt s) = false ∧
      (interrupt s).bSynchCount = s.bSynchCount ∧
      (interrupt s).bRestartCount = s.bRestartCount ∧
      P_SYNCH (interrupt s) = P_SYNCH s ∧ P_RESTART (interrupt s) = P_RESTART s := by
  rw [interrupt_fc s hflag hbyte]
  exact ⟨P_RUN_set_P_RUN _ _, rfl, rfl, P_SYNCH_set_P_RUN _ _, P_RESTART_set_P_RUN _ _⟩

/-- C5 at a concrete input: 0xFC delivered while both pulses are running. -/
theorem stop_immediate_witness :
    bitRead (deliver 0xfc (run [Event.rx 0xf8, Event.rx 0xfa, Event.tick] allZero)).pir1 5
        = true ∧
      (deliver 0xfc (run [Event.rx 0xf8, Event.rx 0xfa, Event.tick] allZero)).rcreg = 0xfc ∧
      P_RUN (interrupt
        (deliver 0xfc (run [Event.rx 0xf8, Event.rx 0xfa, Event.tick] allZero))) = false :=
  ⟨by decide, by decide,
    (stop_immediate (deliver 0xfc (run [Event.rx 0xf8, Event.rx 0xfa, Event.tick] allZero))
      (by decide) (by decide)).1⟩

/-! ## C6: Continue -/

/-- C6. For every state whose receive flag is set and whose receive register holds 0xFB,
`interrupt` leaves the Run pin high and leaves `bSynchCount`, `bRestartCount`, the Sync
pin and the Restart pin as they were. -/
theorem continue_no_pulse (s : State)
    (hflag : bitRead s.pir1 5 = true) (hbyte : s.rcreg = 0xfb) :
    P_RUN (interrupt s) = true ∧
      (interrupt s).bSynchCount = s.bSynchCount ∧
      (interrupt s).bRestartCount = s.bRestartCount ∧
      P_SYNCH (interrupt s) = P_SYNCH s ∧ P_RESTART (interrupt s) = P_RESTART s := by
  rw [interrupt_fb s hflag hbyte]
  exact ⟨P_RUN_set_P_RUN _ _, rfl, rfl, P_SYNCH_set_P_RUN _ _, P_RESTART_set_P_RUN _ _⟩

/-- C6 at a concrete input: 0xFB delivered to the all-zero state; Run goes high and the
Restart pin stays low. -/
theorem continue_no_pulse_witness :
    bitRead (deliver 0xfb allZero).pir1 5 = true ∧ (deliver 0xfb allZero).rcreg = 0xfb ∧
      P_RUN (interrupt (deliver 0xfb allZero)) = true ∧
      P_RESTART (interrupt (deliver 0xfb allZero)) = P_RESTART (deliver 0xfb allZero) :=
  ⟨by decide, by decide,
    (continue_no_pulse (deliver 0xfb allZero) (by decide) (by decide)).1,
    (continue_no_pulse (deliver 0xfb allZero) (by decide) (by decide)).2.2.2.2⟩

/-! ## C7: re-arming restarts the pulse -/

theorem exists_last_split (a : Event) (l : List Event) (h : a ∈ l) :
    ∃ l1 m1, l = l1 ++ a :: m1 ∧ a ∉ m1 := by
  have hr : a ∈ l.reverse := List.mem_reverse.mpr h
  obtain ⟨as, bs, hsplit, hnot⟩ := List.eq_append_cons_of_mem hr
  refine ⟨bs.reverse, as.reverse, ?_, ?_⟩
  · have h2 := congrArg List.reverse hsplit
    simpa using h2
  · simpa using hnot

theorem ticksSince_fold (trig : Fin 256) (m : List Event) (a : Nat)
    (hno : Event.rx trig ∉ m) :
    m.foldl (fun n e =>
      match e with
      | Event.rx b => if b = trig then 0 else n
      | Event.tick => n + 1) a = a + ticks m := by
  induction m generalizing a with
  | nil => simp [ticks_nil]
  | cons e es ih =>
    have hes : Event.rx trig ∉ es := fun hx => hno (List.mem_cons_of_mem _ hx)
    rw [List.foldl_cons]
    cases e with
    | tick =>
      rw [ih (a + 1) hes, ticks_cons_tick]; omega
    | rx b =>
      have hb : b ≠ trig := fun hb => hno (by rw [hb]; exact List.mem_cons_self _ _)
      simp only [hb, if_false]
      rw [ih a hes, ticks_cons_rx]

theorem ticksSince_split (trig : Fin 256) (l1 m1 : List Event)
    (hno : Event.rx trig ∉ m1) :
    ticksSince trig (l1 ++ Event.rx trig :: m1) = ticks m1 := by
  unfold ticksSince
  rw [List.foldl_append, List.foldl_cons]
  simp only [if_true]
  rw [ticksSince_fold trig m1 0 hno]; omega

/-- On either pulse path: when the triggering bytes of a run are spaced by fewer than 255
iterations, the pin is high at every point from the first of them until 255 iterations
after the last. -/
theorem pin_high_across_rearm (view : State → Bool × Nat) (trig : Fin 256)
    (hsim : ∀ s e, view (step s e) = pulseStep (view s) (pulseEv trig e))
    (s : State) (evs : List Event) (hsp : Spaced trig evs) (p q : List Event)
    (hpq : evs = p ++ q) (hp : Event.rx trig ∈ p)
    (hlast : Event.rx trig ∉ q → ticksSince trig p < 255) : (view (run p s)).1 = true := by
  obtain ⟨l1, m1, hsplit, hm1⟩ := exists_last_split (Event.rx trig) p hp
  have hticks : ticks m1 < 255 := by
    by_cases hq : Event.rx trig ∈ q
    · obtain ⟨m2, l3, hq2, hm2⟩ := List.eq_append_cons_of_mem hq
      have hmid : Event.rx trig ∉ m1 ++ m2 := by
        intro hx
        rcases List.mem_append.mp hx with hx | hx
        · exact hm1 hx
        · exact hm2 hx
      have hevs : evs = l1 ++ Event.rx trig :: ((m1 ++ m2) ++ Event.rx trig :: l3) := by
        rw [hpq, hsplit, hq2]; simp
      have hlt := hsp l1 (m1 ++ m2) l3 hevs hmid
      rw [ticks_append] at hlt
      omega
    · have hlt := hlast hq
      rw [hsplit, ticksSince_split trig l1 m1 hm1] at hlt
      exact hlt
  have hno : ∀ e ∈ m1, e ≠ Event.rx trig := fun e he hx => hm1 (hx ▸ he)
  have harm : view (step (run l1 s) (Event.rx trig)) = (true, 255) := by
    rw [hsim]
    simp [pulseEv, pulseStep]
  have hrun : run p s = run m1 (step (run l1 s) (Event.rx trig)) := by
    rw [hsplit, run_append, run_cons]
  rw [hrun, view_run view trig hsim, harm,
    pulseRun_decay trig m1 255 hno (by omega) (by omega)]
  exact decide_eq_true hticks

theorem spaced_of_few_ticks (trig : Fin 256) (evs : List Event) (h : ticks evs < 255) :
    Spaced trig evs := by
  intro l1 mid l3 hevs _
  have hc := congrArg ticks hevs
  rw [ticks_append, ticks_cons_rx, ticks_append, ticks_cons_rx] at hc
  omega

/-- C7, amended. In a state whose Sync timer holds `t` with 0 < t <= 255 and whose Sync
pin is high, handling 0xF8 again leaves the timer at exactly 255 and the pin high; the same
for 0xFA, the Restart timer and the Restart pin. Consequently, in any run made of whole
Receiver invocations and whole main-loop iterations (every byte is handled between two
iterations) whose consecutive 0xF8 bytes are separated by fewer than 255 iterations, the
Sync pin is high at every point `p` of the run that lies after the first 0xF8 and, when
no 0xF8 follows it, fewer than 255 iterations after the last one; the same for 0xFA and
the Restart pin. -/
theorem rearm_restarts_pulse :
    (∀ (s : State) (t : Nat), 0 < t → t ≤ 255 → s.bSynchCount = t → P_SYNCH s = true →
        (receive 0xf8 s).bSynchCount = 255 ∧ P_SYNCH (receive 0xf8 s) = true) ∧
      (∀ (s : State) (t : Nat), 0 < t → t ≤ 255 → s.bRestartCount = t →
        P_RESTART s = true →
        (receive 0xfa s).bRestartCount = 255 ∧ P_RESTART (receive 0xfa s) = true) ∧
      (∀ (s : State) (evs : List Event), Spaced 0xf8 evs →
        ∀ p q : List Event, evs = p ++ q → Event.rx 0xf8 ∈ p →
          (Event.rx 0xf8 ∉ q → ticksSince 0xf8 p < 255) → P_SYNCH (run p s) = true) ∧
      (∀ (s : State) (evs : List Event), Spaced 0xfa evs →
        ∀ p q : List Event, evs = p ++ q → Event.rx 0xfa ∈ p →
          (Event.rx 0xfa ∉ q → ticksSince 0xfa p < 255) → P_RESTART (run p s) = true) := by
  refine ⟨?_, ?_, ?_, ?_⟩
  · intro s t _ _ _ _
    rw [bSynchCount_receive, P_SYNCH_receive]
    exact ⟨rfl, rfl⟩
  · intro s t _ _ _ _
    rw [bRestartCount_receive, P_RESTART_receive]
    exact ⟨rfl, rfl⟩
  · intro s evs hsp p q hpq hp hlast
    exact pin_high_across_rearm syncView 0xf8 syncView_step s evs hsp p q hpq hp hlast
  · intro s evs hsp p q hpq hp hlast
    exact pin_high_across_rearm restartView 0xfa restartView_step s evs hsp p q hpq hp hlast

/-- C7, amended, at a concrete run: two Clock bytes one iteration apart; one iteration after the
second of them the Sync pin is high. -/
theorem rearm_restarts_pulse_witness :
    Spaced 0xf8 [Event.rx 0xf8, Event.tick, Event.rx 0xf8, Event.tick, Event.tick] ∧
      ticksSince 0xf8 [Event.rx 0xf8, Event.tick, Event.rx 0xf8, Event.tick] < 255 ∧
      P_SYNCH (run [Event.rx 0xf8, Event.tick, Event.rx 0xf8, Event.tick] allZero) = true :=
  ⟨spaced_of_few_ticks _ _ (by decide), by decide,
    rearm_restarts_pulse.2.2.1 allZero
      [Event.rx 0xf8, Event.tick, Event.rx 0xf8, Event.tick, Event.tick]
      (spaced_of_few_ticks _ _ (by decide))
      [Event.rx 0xf8, Event.tick, Event.rx 0xf8, Event.tick] [Event.tick] rfl (by decide)
      (fun _ => by decide)⟩

/-! ## C8: a pin is high exactly while its timer runs -/

theorem pulseStep_consistent (p : Bool × Nat) (e : PulseEv)
    (h : (p.1 = true ↔ 0 < p.2) ∧ p.2 ≤ 255) :
    ((pulseStep p e).1 = true ↔ 0 < (pulseStep p e).2) ∧ (pulseStep p e).2 ≤ 255 := by
  obtain ⟨pin, c⟩ := p
  obtain ⟨hiff, hle⟩ := h
  simp only at hiff hle
  cases e with
  | arm => simp [pulseStep]
  | nop => exact ⟨hiff, hle⟩
  | tick =>
    by_cases hc : c = 0
    · subst hc
      simpa [pulseStep] using hiff
    · have hm : (c + 255) % 256 = c - 1 := by omega
      by_cases h1 : c = 1
      · subst h1
        simp [pulseStep]
      · have hpin : pin = true := hiff.mpr (by omega)
        have hne : c - 1 ≠ 0 := by omega
        simp only [pulseStep, hm, hc, hne, ne_eq, not_false_eq_true, and_false, if_false,
          if_true, hpin, true_iff]
        omega

theorem pulseRun_consistent (trig : Fin 256) (evs : List Event) (p : Bool × Nat)
    (h : (p.1 = true ↔ 0 < p.2) ∧ p.2 ≤ 255) :
    ((pulseRun trig evs p).1 = true ↔ 0 < (pulseRun trig evs p).2) ∧
      (pulseRun trig evs p).2 ≤ 255 := by
  induction evs generalizing p with
  | nil => exact h
  | cons e es ih =>
    rw [pulseRun_cons]
    exact ih _ (pulseStep_consistent p (pulseEv trig e) h)

/-- C8. In every state reached from the loop-entry state by any finite sequence of whole
Receiver invocations and whole main-loop iterations, the Sync pin is high if and only if
`bSynchCount` > 0, and the Restart pin is high if and only if `bRestartCount` > 0. -/
theorem pin_timer_consistent (hw : State) (evs : List Event) :
    (P_SYNCH (run evs (loopEntry hw)) = true ↔ 0 < (run evs (loopEntry hw)).bSynchCount) ∧
      (P_RESTART (run evs (loopEntry hw)) = true ↔
        0 < (run evs (loopEntry hw)).bRestartCount) := by
  have hs0 : syncView (loopEntry hw) = (false, 0) := by
    simp [syncView, (loopEntry_pins hw).2.1, (loopEntry_globals hw).2.1]
  have hr0 : restartView (loopEntry hw) = (false, 0) := by
    simp [restartView, (loopEntry_pins hw).2.2, (loopEntry_globals hw).2.2]
  have hs := pulseRun_consistent 0xf8 evs (false, 0) (by simp)
  have hr := pulseRun_consistent 0xfa evs (false, 0) (by simp)
  rw [← hs0, ← view_run syncView 0xf8 syncView_step] at hs
  rw [← hr0, ← view_run restartView 0xfa restartView_step] at hr
  exact ⟨hs.1, hr.1⟩

/-! ## C9: the three signal paths are independent -/

theorem pulseRun_eraseOthers (trig : Fin 256) (evs : List Event) (p : Bool × Nat) :
    pulseRun trig (eraseOthers trig evs) p = pulseRun trig evs p := by
  induction evs generalizing p with
  | nil => rfl
  | cons e es ih =>
    cases e with
    | tick =>
      have hk : eraseOthers trig (Event.tick :: es) = Event.tick :: eraseOthers trig es := by
        simp [eraseOthers]
      rw [hk, pulseRun_cons, pulseRun_cons, ih]
    | rx b =>
      by_cases hb : b = trig
      · have hk : eraseOthers trig (Event.rx b :: es) =
            Event.rx b :: eraseOthers trig es := by
          simp [eraseOthers, hb]
        rw [hk, pulseRun_cons, pulseRun_cons, ih]
      · have hk : eraseOthers trig (Event.rx b :: es) = eraseOthers trig es := by
          simp [eraseOthers, hb]
        have hn : pulseEv trig (Event.rx b) = PulseEv.nop := by
          simp [pulseEv, hb]
        rw [hk, pulseRun_cons, hn, ih]
        rfl

theorem view_eq_of_erase_eq (view : State → Bool × Nat) (trig : Fin 256)
    (hsim : ∀ s e, view (step s e) = pulseStep (view s) (pulseEv trig e))
    (s : State) (evs1 evs2 : List Event)
    (h : eraseOthers trig evs1 = eraseOthers trig evs2) :
    view (run evs1 s) = view (run evs2 s) := by
  rw [view_run view trig hsim, view_run view trig hsim,
    ← pulseRun_eraseOthers trig evs1, ← pulseRun_eraseOthers trig evs2, h]

/-- C9. For two event sequences applied to the same state: if they agree once every byte
other than 0xF8 is erased, they give the same Sync pin and `bSynchCount`; if they agree
once every byte other than 0xFA is erased, they give the same Restart pin and
`bRestartCount`; if they have the same subsequence of bytes among 0xFA, 0xFB, 0xFC, they
give the same Run pin. After 0xFA, 0xF8, 0xFC, 0xFB with no iteration in between, Run is
high, Restart is high with `bRestartCount` = 255 and Sync is high with
`bSynchCount` = 255. -/
theorem paths_independent (s : State) (evs1 evs2 : List Event) :
    (eraseOthers 0xf8 evs1 = eraseOthers 0xf8 evs2 →
        P_SYNCH (run evs1 s) = P_SYNCH (run evs2 s) ∧
          (run evs1 s).bSynchCount = (run evs2 s).bSynchCount) ∧
      (eraseOthers 0xfa evs1 = eraseOthers 0xfa evs2 →
        P_RESTART (run evs1 s) = P_RESTART (run evs2 s) ∧
          (run evs1 s).bRestartCount = (run evs2 s).bRestartCount) ∧
      (transportBytes evs1 = transportBytes evs2 →
        P_RUN (run evs1 s) = P_RUN (run evs2 s)) ∧
      (P_RUN (run [Event.rx 0xfa, Event.rx 0xf8, Event.rx 0xfc, Event.rx 0xfb] s) = true ∧
        P_RESTART (run [Event.rx 0xfa, Event.rx 0xf8, Event.rx 0xfc, Event.rx 0xfb] s)
          = true ∧
        (run [Event.rx 0xfa, Event.rx 0xf8, Event.rx 0xfc, Event.rx 0xfb] s).bRestartCount
          = 255 ∧
        P_SYNCH (run [Event.rx 0xfa, Event.rx 0xf8, Event.rx 0xfc, Event.rx 0xfb] s)
          = true ∧
        (run [Event.rx 0xfa, Event.rx 0xf8, Event.rx 0xfc, Event.rx 0xfb] s).bSynchCount
          = 255) := by
  refine ⟨?_, ?_, ?_, ?_⟩
  · intro h
    have hv := view_eq_of_erase_eq syncView 0xf8 syncView_step s evs1 evs2 h
    exact ⟨congrArg Prod.fst hv, congrArg Prod.snd hv⟩
  · intro h
    have hv := view_eq_of_erase_eq restartView 0xfa restartView_step s evs1 evs2 h
    exact ⟨congrArg Prod.fst hv, congrArg Prod.snd hv⟩
  · intro h
    rw [P_RUN_run, P_RUN_run, runPin_fold, runPin_fold]
    simp only [lastTransport, h]
  · have hs := view_run syncView 0xf8 syncView_step
      [Event.rx 0xfa, Event.rx 0xf8, Event.rx 0xfc, Event.rx 0xfb] s
    have hr := view_run restartView 0xfa restartView_step
      [Event.rx 0xfa, Event.rx 0xf8, Event.rx 0xfc, Event.rx 0xfb] s
    have hs2 : pulseRun 0xf8 [Event.rx 0xfa, Event.rx 0xf8, Event.rx 0xfc, Event.rx 0xfb]
        (syncView s) = (true, 255) := by
      simp [pulseRun, pulseEv, pulseStep]
    have hr2 : pulseRun 0xfa [Event.rx 0xfa, Event.rx 0xf8, Event.rx 0xfc, Event.rx 0xfb]
        (restartView s) = (true, 255) := by
      simp [pulseRun, pulseEv, pulseStep]
    rw [hs2] at hs
    rw [hr2] at hr
    refine ⟨?_, congrArg Prod.fst hr, congrArg Prod.snd hr, congrArg Prod.fst hs,
      congrArg Prod.snd hs⟩
    rw [P_RUN_run, runPin_fold]
    rfl

/-- C9 at concrete runs: a run with Start, Stop and another byte interleaved and the run
with only its Clock byte and iterations give the same Sync pin. -/
theorem paths_independent_witness :
    eraseOthers 0xf8 [Event.rx 0xfa, Event.rx 0xf8, Event.tick, Event.rx 0xfc, Event.rx 0x90]
        = eraseOthers 0xf8 [Event.rx 0xf8, Event.tick] ∧
      P_SYNCH (run [Event.rx 0xfa, Event.rx 0xf8, Event.tick, Event.rx 0xfc, Event.rx 0x90]
        allZero) = P_SYNCH (run [Event.rx 0xf8, Event.tick] allZero) :=
  ⟨by decide,
    ((paths_independent allZero
      [Event.rx 0xfa, Event.rx 0xf8, Event.tick, Event.rx 0xfc, Event.rx 0x90]
      [Event.rx 0xf8, Event.tick]).1 (by decide)).1⟩

/-! ## C10: the global `bRunning` -/

/-- C10 as stated fails: after Start is handled in the loop-entry state reached from the
all-zero power-up state, the Run pin is high while `bRunning` is still 0, so `bRunning`
is not nonzero exactly when the Run pin is high. -/
theorem runflag_cell_counterexample :
    P_RUN (run [Event.rx 0xfa] (loopEntry allZero)) = true ∧
      (run [Event.rx 0xfa] (loopEntry allZero)).bRunning = 0 ∧
      ¬ ((run [Event.rx 0xfa] (loopEntry allZero)).bRunning ≠ 0 ↔
        P_RUN (run [Event.rx 0xfa] (loopEntry allZero)) = true) := by
  have hp : P_RUN (run [Event.rx 0xfa] (loopEntry allZero)) = true := by
    rw [P_RUN_run, runPin_fold]
    rfl
  have hb : (run [Event.rx 0xfa] (loopEntry allZero)).bRunning = 0 := by
    rw [bRunning_run]
    exact (loopEntry_globals allZero).1
  refine ⟨hp, hb, ?_⟩
  rw [hp, hb]
  simp

/-- C10, amended. The Receiver drives the Run pin high on Start (0xFA) and on Continue
(0xFB) and low on Stop (0xFC); neither the Receiver nor the main loop writes `bRunning`,
which is 0 in every state reached from the loop-entry state, whatever the Run pin. -/
theorem runflag_is_the_pin (hw : State) (evs : List Event) :
    (run evs (loopEntry hw)).bRunning = 0 ∧
      (∀ (s : State) (b : Fin 256), (receive b s).bRunning = s.bRunning) ∧
      (∀ s : State, (main_loop s).bRunning = s.bRunning) ∧
      (∀ s : State, P_RUN (receive 0xfa s) = true ∧ P_RUN (receive 0xfb s) = true ∧
        P_RUN (receive 0xfc s) = false) := by
  refine ⟨?_, fun s b => bRunning_receive b s, bRunning_main_loop, ?_⟩
  · rw [bRunning_run]
    exact (loopEntry_globals hw).1
  · intro s
    refine ⟨?_, ?_, ?_⟩ <;> rw [P_RUN_receive] <;> rfl

/-! ## C11: the Receiver inside a main-loop iteration -/

theorem decaySynchAt_id (k : Nat) (s t : State) (h : decaySynchAt k id s = some t) :
    t = decaySynch s := by
  unfold decaySynchAt at h
  split at h
  · simpa [eq_comm] using h
  · unfold decaySynch
    by_cases hc : s.bSynchCount = 0
    · simp [hc] at h
    · simp only [hc, ne_eq, not_false_eq_true, if_true, id, Option.some.injEq] at h
      simp only [hc, ne_eq, not_false_eq_true, if_true]
      exact h.symm
  · unfold decaySynch
    by_cases hc : s.bSynchCount = 0
    · simp [hc] at h
    · by_cases h0 : (s.bSynchCount + 255) % 256 = 0
      · simp only [hc, h0, ne_eq, not_false_eq_true, if_true, id, Option.some.injEq] at h
        simp only [hc, h0, ne_eq, not_false_eq_true, if_true]
        exact h.symm
      · simp [hc, h0] at h
  · simp at h

theorem decayRestartAt_id (k : Nat) (s t : State) (h : decayRestartAt k id s = some t) :
    t = decayRestart s := by
  unfold decayRestartAt at h
  split at h
  · simpa [eq_comm] using h
  · unfold decayRestart
    by_cases hc : s.bRestartCount = 0
    · simp [hc] at h
    · simp only [hc, ne_eq, not_false_eq_true, if_true, id, Option.some.injEq] at h
      simp only [hc, ne_eq, not_false_eq_true, if_true]
      exact h.symm
  · unfold decayRestart
    by_cases hc : s.bRestartCount = 0
    · simp [hc] at h
    · by_cases h0 : (s.bRestartCount + 255) % 256 = 0
      · simp only [hc, h0, ne_eq, not_false_eq_true, if_true, id, Option.some.injEq] at h
        simp only [hc, h0, ne_eq, not_false_eq_true, if_true]
        exact h.symm
      · simp [hc, h0] at h
  · simp at h

/-- Without a handler at the chosen point, the interrupted iteration is the plain one. -/
theorem main_loop_at_id (k : Nat) (s t : State) (h : main_loop_at k id s = some t) :
    t = main_loop s := by
  unfold main_loop_at at h
  unfold main_loop
  by_cases h3 : k < 3
  · simp only [h3, if_true, Option.map_eq_some'] at h
    obtain ⟨u, hu, hut⟩ := h
    rw [← hut, decaySynchAt_id k s u hu]
  · by_cases h6 : k < 6
    · simp only [h3, h6, if_true, if_false] at h
      exact decayRestartAt_id (k - 3) _ t h
    · by_cases h7 : k = 6
      · subst h7
        simp only [Nat.lt_irrefl, if_true, if_false, id, Option.some.injEq,
          show ¬ (6 < 3) by decide] at h
        rw [← h]; rfl
      · simp [h3, h6, h7] at h

theorem counters_set_P_SYNCH (v : Bool) (s : State) :
    (set_P_SYNCH v s).bSynchCount = s.bSynchCount ∧
      (set_P_SYNCH v s).bRestartCount = s.bRestartCount := ⟨rfl, rfl⟩

theorem counters_set_P_RESTART (v : Bool) (s : State) :
    (set_P_RESTART v s).bSynchCount = s.bSynchCount ∧
      (set_P_RESTART v s).bRestartCount = s.bRestartCount := ⟨rfl, rfl⟩

theorem pins_with_bSynchCount (s : State) (x : Nat) :
    P_SYNCH { s with bSynchCount := x } = P_SYNCH s ∧
      P_RESTART { s with bSynchCount := x } = P_RESTART s := ⟨rfl, rfl⟩

theorem pins_with_bRestartCount (s : State) (x : Nat) :
    P_SYNCH { s with bRestartCount := x } = P_SYNCH s ∧
      P_RESTART { s with bRestartCount := x } = P_RESTART s := ⟨rfl, rfl⟩

/-- Clock byte handled inside the Sync statement: only at point 2 is the pin low. -/
theorem clock_in_sync_statement (k : Nat) (s t : State)
    (h : decaySynchAt k (receive 0xf8) s = some t) :
    (k = 2 → P_SYNCH t = false ∧ t.bSynchCount = 255) ∧
      (k ≠ 2 → P_SYNCH t = true ∧ t.bSynchCount = 254) := by
  unfold decaySynchAt at h
  split at h
  · simp only [Option.some.injEq] at h
    subst h
    rw [P_SYNCH_decaySynch, bSynchCount_decaySynch, bSynchCount_receive, P_SYNCH_receive]
    simp
  · by_cases hc : s.bSynchCount = 0
    · simp [hc] at h
    · simp only [hc, ne_eq, not_false_eq_true, if_true, bSynchCount_receive,
        Option.some.injEq] at h
      subst h
      simp [(pins_with_bSynchCount _ _).1, P_SYNCH_receive]
  · by_cases hc : s.bSynchCount = 0
    · simp [hc] at h
    · by_cases h0 : (s.bSynchCount + 255) % 256 = 0
      · simp only [hc, h0, ne_eq, not_false_eq_true, if_true, Option.some.injEq] at h
        subst h
        simp [(counters_set_P_SYNCH _ _).1, bSynchCount_receive]
      · simp [hc, h0] at h
  · simp at h

/-- Start byte handled inside the Restart statement: only at point 2 is the pin low. -/
theorem start_in_restart_statement (k : Nat) (s t : State)
    (h : decayRestartAt k (receive 0xfa) s = some t) :
    (k = 2 → P_RESTART t = false ∧ t.bRestartCount = 255) ∧
      (k ≠ 2 → P_RESTART t = true ∧ t.bRestartCount = 254) := by
  unfold decayRestartAt at h
  split at h
  · simp only [Option.some.injEq] at h
    subst h
    rw [P_RESTART_decayRestart, bRestartCount_decayRestart, bRestartCount_receive,
      P_RESTART_receive]
    simp
  · by_cases hc : s.bRestartCount = 0
    · simp [hc] at h
    · simp only [hc, ne_eq, not_false_eq_true, if_true, bRestartCount_receive,
        Option.some.injEq] at h
      subst h
      simp [(pins_with_bRestartCount _ _).2, P_RESTART_receive]
  · by_cases hc : s.bRestartCount = 0
    · simp [hc] at h
    · by_cases h0 : (s.bRestartCount + 255) % 256 = 0
      · simp only [hc, h0, ne_eq, not_false_eq_true, if_true, Option.some.injEq] at h
        subst h
        simp [(counters_set_P_RESTART _ _).2, bRestartCount_receive]
      · simp [hc, h0] at h
  · simp at h

/-- Clock byte handled inside the Restart statement: the Sync path is freshly armed. -/
theorem clock_in_restart_statement (k : Nat) (s t : State)
    (h : decayRestartAt k (receive 0xf8) s = some t) :
    P_SYNCH t = true ∧ t.bSynchCount = 255 := by
  unfold decayRestartAt at h
  split at h
  · simp only [Option.some.injEq] at h
    subst h
    rw [(decayRestart_frame _).2.2.1, (decayRestart_frame _).1, bSynchCount_receive,
      P_SYNCH_receive]
    simp
  · by_cases hc : s.bRestartCount = 0
    · simp [hc] at h
    · simp only [hc, ne_eq, not_false_eq_true, if_true, Option.some.injEq] at h
      subst h
      split_ifs
      · rw [P_SYNCH_set_P_RESTART, (counters_set_P_RESTART _ _).1]
        exact ⟨by rw [(pins_with_bRestartCount _ _).1, P_SYNCH_receive]; rfl,
          by show (receive 0xf8 s).bSynchCount = 255; rw [bSynchCount_receive]; rfl⟩
      · exact ⟨by rw [(pins_with_bRestartCount _ _).1, P_SYNCH_receive]; rfl,
          by show (receive 0xf8 s).bSynchCount = 255; rw [bSynchCount_receive]; rfl⟩
  · by_cases hc : s.bRestartCount = 0
    · simp [hc] at h
    · by_cases h0 : (s.bRestartCount + 255) % 256 = 0
      · simp only [hc, h0, ne_eq, not_false_eq_true, if_true, Option.some.injEq] at h
        subst h
        rw [P_SYNCH_set_P_RESTART, (counters_set_P_RESTART _ _).1, bSynchCount_receive,
          P_SYNCH_receive]
        simp
      · simp [hc, h0] at h
  · simp at h

/-- Start byte handled inside the Sync statement: the Restart path is freshly armed. -/
theorem start_in_sync_statement (k : Nat) (s t : State)
    (h : decaySynchAt k (receive 0xfa) s = some t) :
    P_RESTART t = true ∧ t.bRestartCount = 255 := by
  unfold decaySynchAt at h
  split at h
  · simp only [Option.some.injEq] at h
    subst h
    rw [(decaySynch_frame _).2.2.1, (decaySynch_frame _).1, bRestartCount_receive,
      P_RESTART_receive]
    simp
  · by_cases hc : s.bSynchCount = 0
    · simp [hc] at h
    · simp only [hc, ne_eq, not_false_eq_true, if_true, Option.some.injEq] at h
      subst h
      split_ifs
      · rw [P_RESTART_set_P_SYNCH, (counters_set_P_SYNCH _ _).2]
        exact ⟨by rw [(pins_with_bSynchCount _ _).2, P_RESTART_receive]; rfl,
          by show (receive 0xfa s).bRestartCount = 255; rw [bRestartCount_receive]; rfl⟩
      · exact ⟨by rw [(pins_with_bSynchCount _ _).2, P_RESTART_receive]; rfl,
          by show (receive 0xfa s).bRestartCount = 255; rw [bRestartCount_receive]; rfl⟩
  · by_cases hc : s.bSynchCount = 0
    · simp [hc] at h
    · by_cases h0 : (s.bSynchCount + 255) % 256 = 0
      · simp only [hc, h0, ne_eq, not_false_eq_true, if_true, Option.some.injEq] at h
        subst h
        rw [P_RESTART_set_P_SYNCH, (counters_set_P_SYNCH _ _).2, bRestartCount_receive,
          P_RESTART_receive]
        simp
      · simp [hc, h0] at h
  · simp at h

theorem main_loop_at_clock (k : Nat) (s t : State)
    (h : main_loop_at k (receive 0xf8) s = some t) :
    (k = 2 → P_SYNCH t = false ∧ t.bSynchCount = 255) ∧
      (k ≠ 2 → P_SYNCH t = true ∧ t.bSynchCount = if k < 2 then 254 else 255) := by
  unfold main_loop_at at h
  by_cases h3 : k < 3
  · simp only [h3, if_true, Option.map_eq_some'] at h
    obtain ⟨u, hu, hut⟩ := h
    have hk := clock_in_sync_statement k s u hu
    subst hut
    rw [(decayRestart_frame u).2.2.1, (decayRestart_frame u).1]
    refine ⟨hk.1, fun hne => ?_⟩
    have hlt : k < 2 := by omega
    simp only [hlt, if_true]
    exact hk.2 hne
  · by_cases h6 : k < 6
    · simp only [h3, h6, if_true, if_false] at h
      have hk := clock_in_restart_statement (k - 3) _ t h
      have hlt : ¬ k < 2 := by omega
      refine ⟨fun h2 => by omega, fun _ => ?_⟩
      simp only [hlt, if_false]
      exact hk
    · by_cases h7 : k = 6
      · subst h7
        simp only [Nat.lt_irrefl, if_true, if_false, Option.some.injEq,
          show ¬ (6 < 3) by decide] at h
        subst h
        refine ⟨fun h2 => by omega, fun _ => ?_⟩
        rw [P_SYNCH_receive, bSynchCount_receive]
        simp
      · simp [h3, h6, h7] at h

theorem main_loop_at_start (k : Nat) (s t : State)
    (h : main_loop_at k (receive 0xfa) s = some t) :
    (k = 5 → P_RESTART t = false ∧ t.bRestartCount = 255) ∧
      (k ≠ 5 → P_RESTART t = true ∧ t.bRestartCount = if k < 5 then 254 else 255) := by
  unfold main_loop_at at h
  by_cases h3 : k < 3
  · simp only [h3, if_true, Option.map_eq_some'] at h
    obtain ⟨u, hu, hut⟩ := h
    have hk := start_in_sync_statement k s u hu
    subst hut
    have hlt : k < 5 := by omega
    refine ⟨fun h5 => by omega, fun _ => ?_⟩
    rw [P_RESTART_decayRestart, bRestartCount_decayRestart, hk.1, hk.2]
    simp [hlt]
  · by_cases h6 : k < 6
    · simp only [h3, h6, if_true, if_false] at h
      have hk := start_in_restart_statement (k - 3) _ t h
      refine ⟨fun h5 => hk.1 (by omega), fun hne => ?_⟩
      have hlt : k < 5 := by omega
      simp only [hlt, if_true]
      exact hk.2 (by omega)
    · by_cases h7 : k = 6
      · subst h7
        simp only [Nat.lt_irrefl, if_true, if_false, Option.some.injEq,
          show ¬ (6 < 3) by decide] at h
        subst h
        refine ⟨fun h5 => by omega, fun _ => ?_⟩
        rw [P_RESTART_receive, bRestartCount_receive]
        simp
      · simp [h3, h6, h7] at h

/-- Which statement boundaries an iteration passes. -/
theorem main_loop_at_passed (k : Nat) (irq : State → State) (s : State) :
    (main_loop_at k irq s).isSome = true ↔
      k = 0 ∨ (k = 1 ∧ s.bSynchCount ≠ 0) ∨
      (k = 2 ∧ s.bSynchCount ≠ 0 ∧ (s.bSynchCount + 255) % 256 = 0) ∨
      k = 3 ∨ (k = 4 ∧ s.bRestartCount ≠ 0) ∨
      (k = 5 ∧ s.bRestartCount ≠ 0 ∧ (s.bRestartCount + 255) % 256 = 0) ∨ k = 6 := by
  have hr : (decaySynch s).bRestartCount = s.bRestartCount := (decaySynch_frame s).1
  rcases Nat.lt_or_ge k 7 with hk | hk
  · interval_cases k
    · simp [main_loop_at, decaySynchAt]
    · by_cases hc : s.bSynchCount = 0 <;> simp [main_loop_at, decaySynchAt, hc]
    · by_cases hc : s.bSynchCount = 0
      · simp [main_loop_at, decaySynchAt, hc]
      · by_cases h0 : (s.bSynchCount + 255) % 256 = 0 <;>
          simp [main_loop_at, decaySynchAt, hc, h0]
    · simp [main_loop_at, decayRestartAt]
    · by_cases hc : s.bRestartCount = 0 <;> simp [main_loop_at, decayRestartAt, hc, hr]
    · by_cases hc : s.bRestartCount = 0
      · simp [main_loop_at, decayRestartAt, hc, hr]
      · by_cases h0 : (s.bRestartCount + 255) % 256 = 0 <;>
          simp [main_loop_at, decayRestartAt, hc, h0, hr]
    · simp [main_loop_at]
  · have h1 : ¬ k < 3 := by omega
    have h2 : ¬ k < 6 := by omega
    have h3 : ¬ k = 6 := by omega
    simp only [main_loop_at, h1, h2, h3, if_false, Option.isSome_none]
    constructor
    · intro h; cases h
    · intro h
      rcases h with h | ⟨h, _⟩ | ⟨h, _⟩ | h | ⟨h, _⟩ | ⟨h, _⟩ | h <;>
        first | omega | contradiction

/-- After a Clock byte and a run with 254 loop iterations and no further Clock byte, the
Sync timer is 1. -/
theorem count_before_expiry (s : State) (evs : List Event)
    (hno : ∀ e ∈ evs, e ≠ Event.rx 0xf8) (ht : ticks evs = 254) :
    (run (Event.rx 0xf8 :: evs) s).bSynchCount = 1 := by
  have harm : syncView (step s (Event.rx 0xf8)) = (true, 255) := by
    rw [syncView_step]
    rfl
  have hv : syncView (run (Event.rx 0xf8 :: evs) s) = (true, 1) := by
    rw [run_cons, view_run syncView 0xf8 syncView_step, harm,
      pulseRun_decay 0xf8 _ 255 hno (by omega) (by omega), ht]
    rfl
  exact congrArg Prod.snd hv

theorem replicate_tick_no_clock (n : Nat) :
    ∀ e ∈ List.replicate n Event.tick, e ≠ Event.rx 0xf8 := by
  intro e he
  rw [List.eq_of_mem_replicate he]
  decide

theorem ticks_replicate (n : Nat) : ticks (List.replicate n Event.tick) = n :=
  List.count_replicate_self Event.tick n

/-- With the Sync timer at 1, a Clock byte handled at boundary 2 of the iteration is
followed by the pending pin write. -/
theorem race_at_one (s : State) (hc : s.bSynchCount = 1) :
    ∃ t : State, main_loop_at 2 (receive 0xf8) s = some t ∧
      P_SYNCH t = false ∧ t.bSynchCount = 255 := by
  have hsome := (main_loop_at_passed 2 (receive 0xf8) s).mpr
    (Or.inr (Or.inr (Or.inl ⟨rfl, by rw [hc]; decide, by rw [hc]⟩)))
  obtain ⟨t, ht⟩ := Option.isSome_iff_exists.mp hsome
  exact ⟨t, ht, (main_loop_at_clock 2 s t ht).1 rfl⟩

/-- C11 as stated fails. Take the state reached from loop entry by a Clock byte and 254
loop iterations (Sync pin high, `bSynchCount` = 1). In the next iteration the loop
decrements `bSynchCount` to 0; if the Receiver handles 0xF8 at the statement boundary
before `P_SYNCH = 0`, the loop then executes that write: the iteration ends with
`bSynchCount` = 255 and the Sync pin low. -/
theorem race_clears_pulse_counterexample :
    ∃ t : State,
      main_loop_at 2 (receive 0xf8)
          (run (Event.rx 0xf8 :: List.replicate 254 Event.tick) (loopEntry allZero)) = some t ∧
        P_SYNCH t = false ∧ t.bSynchCount = 255 :=
  race_at_one _ (count_before_expiry (loopEntry allZero) (List.replicate 254 Event.tick)
    (replicate_tick_no_clock 254) (ticks_replicate 254))

/-- C11, amended. The Receiver handles 0xF8 once, at statement boundary `k` of a main-loop
iteration (0 to 6, `main_loop_at`), and `t` is the state at the end of the iteration.
At every boundary but 2 the Sync pin is high in `t` and `bSynchCount` is 255, or 254 when
the byte came before the loop decremented (boundaries 0 and 1). At boundary 2, which the
loop passes exactly when it has just decremented `bSynchCount` to 0 and is about to write
the pin, the pending `P_SYNCH = 0` is still executed: `bSynchCount` is 255 and the Sync
pin is low. The same holds for 0xFA, `bRestartCount`, the Restart pin and boundary 5. -/
theorem rearm_inside_iteration (s t : State) (k : Nat) :
    (main_loop_at k (receive 0xf8) s = some t →
        (k = 2 → P_SYNCH t = false ∧ t.bSynchCount = 255) ∧
        (k ≠ 2 → P_SYNCH t = true ∧ t.bSynchCount = if k < 2 then 254 else 255)) ∧
      (main_loop_at k (receive 0xfa) s = some t →
        (k = 5 → P_RESTART t = false ∧ t.bRestartCount = 255) ∧
        (k ≠ 5 → P_RESTART t = true ∧ t.bRestartCount = if k < 5 then 254 else 255)) ∧
      (∀ irq : State → State, (main_loop_at k irq s).isSome = true ↔
        k = 0 ∨ (k = 1 ∧ s.bSynchCount ≠ 0) ∨
        (k = 2 ∧ s.bSynchCount ≠ 0 ∧ (s.bSynchCount + 255) % 256 = 0) ∨
        k = 3 ∨ (k = 4 ∧ s.bRestartCount ≠ 0) ∨
        (k = 5 ∧ s.bRestartCount ≠ 0 ∧ (s.bRestartCount + 255) % 256 = 0) ∨ k = 6) ∧
      (main_loop_at k id s = some t → t = main_loop s) :=
  ⟨main_loop_at_clock k s t, main_loop_at_start k s t,
    fun irq => main_loop_at_passed k irq s, main_loop_at_id k s t⟩

/-- C11, amended, at a concrete input: 0xF8 handled before the loop tests `bSynchCount`,
in the all-zero state; the iteration ends with the Sync pin high and the timer at 254. -/
theorem rearm_inside_iteration_witness :
    main_loop_at 0 (receive 0xf8) allZero = some (main_loop (receive 0xf8 allZero)) ∧
      P_SYNCH (main_loop (receive 0xf8 allZero)) = true ∧
      (main_loop (receive 0xf8 allZero)).bSynchCount = 254 :=
  ⟨by decide,
    ((rearm_inside_iteration allZero (main_loop (receive 0xf8 allZero)) 0).1
      (by decide)).2 (by decide)⟩

/-! ## C7 again: a triggering byte handled inside an iteration -/

/-- After a Clock byte and a run with 254 loop iterations and no further Clock byte, the
Sync pin is still high. -/
theorem pin_before_expiry (s : State) (evs : List Event)
    (hno : ∀ e ∈ evs, e ≠ Event.rx 0xf8) (ht : ticks evs = 254) :
    P_SYNCH (run (Event.rx 0xf8 :: evs) s) = true := by
  have harm : syncView (step s (Event.rx 0xf8)) = (true, 255) := by
    rw [syncView_step]
    rfl
  have hv : syncView (run (Event.rx 0xf8 :: evs) s) = (true, 1) := by
    rw [run_cons, view_run syncView 0xf8 syncView_step, harm,
      pulseRun_decay 0xf8 _ 255 hno (by omega) (by omega), ht]
    rfl
  exact congrArg Prod.fst hv

/-- Main-loop iterations never raise the Sync pin: once low it stays low. -/
theorem P_SYNCH_stays_low (s : State) (h : P_SYNCH s = false) (n : Nat) :
    P_SYNCH (main_loop^[n] s) = false := by
  induction n with
  | zero => exact h
  | succ k ih =>
    rw [Function.iterate_succ_apply', P_SYNCH_main_loop, ih]
    split_ifs <;> rfl

/-- While the Sync timer has not expired, `n` main-loop iterations take `n` off it. -/
theorem bSynchCount_iterate (s : State) (c : Nat) (hc : s.bSynchCount = c) (hle : c ≤ 255)
    (n : Nat) (hn : n ≤ c) : (main_loop^[n] s).bSynchCount = c - n := by
  induction n with
  | zero => exact hc
  | succ k ih =>
    have hk := ih (by omega)
    rw [Function.iterate_succ_apply', bSynchCount_main_loop, hk]
    have hne : c - k ≠ 0 := by omega
    rw [if_pos hne]
    omega

/-- C7 as stated fails when a byte is handled inside an iteration. From loop entry: a
Clock byte, 254 whole main-loop iterations (fewer than 255, the Sync pin is high and
`bSynchCount` = 1), then a second Clock byte handled inside the next iteration, after the
loop has decremented `bSynchCount` to 0 and before it executes `P_SYNCH = 0`. The
iteration ends with `bSynchCount` = 255 and the Sync pin low, and the pin stays low over
every further iteration while the timer counts down from 255: the pin is low at points
that lie fewer than 255 iterations after the last Clock byte. -/
theorem rearm_overlap_counterexample :
    ticks (List.replicate 254 Event.tick) < 255 ∧
      P_SYNCH (run (Event.rx 0xf8 :: List.replicate 254 Event.tick) (loopEntry allZero))
        = true ∧
      ∃ t : State,
        main_loop_at 2 (receive 0xf8)
            (run (Event.rx 0xf8 :: List.replicate 254 Event.tick) (loopEntry allZero))
          = some t ∧
        t.bSynchCount = 255 ∧
        (∀ n : Nat, P_SYNCH (main_loop^[n] t) = false) ∧
        (∀ n : Nat, n ≤ 255 → (main_loop^[n] t).bSynchCount = 255 - n) := by
  have hcount := count_before_expiry (loopEntry allZero) (List.replicate 254 Event.tick)
    (replicate_tick_no_clock 254) (ticks_replicate 254)
  have hinv := pin_before_expiry (loopEntry allZero) (List.replicate 254 Event.tick)
    (replicate_tick_no_clock 254) (ticks_replicate 254)
  obtain ⟨t, ht, hpin, hcnt⟩ := race_at_one _ hcount
  refine ⟨by rw [ticks_replicate]; decide, hinv, t, ht, hcnt, P_SYNCH_stays_low t hpin, ?_⟩
  intro n hn
  exact bSynchCount_iterate t 255 hcnt (by omega) n hn

/-! ## C12: the serial format -/

theorem init_usart_serial (s : State) :
    bitRead (init_usart s).txsta 4 = false ∧ bitRead (init_usart s).rcsta 6 = false ∧
      bitRead (init_usart s).rcsta 7 = true ∧ bitRead (init_usart s).rcsta 4 = true ∧
      bitRead (init_usart s).baudctl 3 = true ∧ bitRead (init_usart s).txsta 2 = false ∧
      (init_usart s).spbrgh = 0 ∧ (init_usart s).spbrg = 15 := by
  simp [init_usart, bitRead_bitWrite]

theorem flashLed_three_serial (s : State) :
    (flashLed 3 s).txsta = s.txsta ∧ (flashLed 3 s).rcsta = s.rcsta ∧
      (flashLed 3 s).baudctl = s.baudctl ∧ (flashLed 3 s).spbrgh = s.spbrgh ∧
      (flashLed 3 s).spbrg = s.spbrg ∧ (flashLed 3 s).osccon = s.osccon := by
  simp [flashLed_three, set_P_RUN]

theorem main_init_eq (s : State) : main_init s = flashLed 3 (main_setup s) := rfl

/-- C12. After the start-up code of `main` (which calls `init_usart`), whatever the
registers held before: SYNC (`txsta.4`) = 0, RX9 (`rcsta.6`) = 0, SPEN (`rcsta.7`) = 1,
CREN (`rcsta.4`) = 1, BRG16 (`baudctl.3`) = 1, BRGH (`txsta.2`) = 0, SPBRGH = 0 and
SPBRG = 15; `osccon` holds 0x71, whose bits 6..4 select the 8 MHz internal oscillator.
With the divisor n = 256 * SPBRGH + SPBRG = 15 and the 8 MHz clock, Fosc / (16 * (n + 1))
is 31250, and the division is exact: 31250 * (16 * (n + 1)) = Fosc. -/
theorem serial_format (s : State) :
    bitRead (main_init s).txsta 4 = false ∧ bitRead (main_init s).rcsta 6 = false ∧
      bitRead (main_init s).rcsta 7 = true ∧ bitRead (main_init s).rcsta 4 = true ∧
      bitRead (main_init s).baudctl 3 = true ∧ bitRead (main_init s).txsta 2 = false ∧
      (main_init s).spbrgh = 0 ∧ (main_init s).spbrg = 15 ∧
      (main_init s).osccon = 0x71 ∧ (main_init s).osccon / 16 % 8 = 7 ∧
      baudRate CLOCK_FREQ (256 * (main_init s).spbrgh + (main_init s).spbrg) = 31250 ∧
      31250 * (16 * (256 * (main_init s).spbrgh + (main_init s).spbrg + 1)) = CLOCK_FREQ := by
  have hf := flashLed_three_serial (main_setup s)
  have hu := init_usart_serial
    { s with osccon := 0b01110001, cmcon0 := 7, intcon := 0b11000000,
             pie1 := bitWrite s.pie1 5 true, trisa := 0b00001000, trisc := 0b01000000,
             ansel := 0b00000000, porta := 0, portc := 0 }
  have hosc : (main_setup s).osccon = 0x71 := rfl
  rw [main_init_eq, hf.1, hf.2.1, hf.2.2.1, hf.2.2.2.1, hf.2.2.2.2.1, hf.2.2.2.2.2, hosc]
  have h1 : (main_setup s).spbrgh = 0 := hu.2.2.2.2.2.2.1
  have h2 : (main_setup s).spbrg = 15 := hu.2.2.2.2.2.2.2
  refine ⟨hu.1, hu.2.1, hu.2.2.1, hu.2.2.2.1, hu.2.2.2.2.1, hu.2.2.2.2.2.1, h1, h2, rfl,
    by norm_num, ?_, ?_⟩
  · rw [h1, h2]; norm_num [baudRate, CLOCK_FREQ]
  · rw [h1, h2]; norm_num [CLOCK_FREQ]

/-! ## C13: one main-loop iteration -/

/-- C13. One main-loop iteration, for each timer on its own and every timer value `t` in
0..255: when t > 0 the timer becomes t - 1, the pin is low afterwards when t = 1 and is
unchanged otherwise; when t = 0 the timer stays 0 (no wrap to 255) and the pin is
unchanged whatever its level. The iteration raises no pin (a pin that is high afterwards
was high before) and leaves the Run pin as it was. -/
theorem loop_iteration_effect (s : State) :
    (s.bSynchCount ≤ 255 →
        (0 < s.bSynchCount →
          (main_loop s).bSynchCount = s.bSynchCount - 1 ∧
            (s.bSynchCount = 1 → P_SYNCH (main_loop s) = false) ∧
            (s.bSynchCount ≠ 1 → P_SYNCH (main_loop s) = P_SYNCH s)) ∧
        (s.bSynchCount = 0 →
          (main_loop s).bSynchCount = 0 ∧ P_SYNCH (main_loop s) = P_SYNCH s)) ∧
      (s.bRestartCount ≤ 255 →
        (0 < s.bRestartCount →
          (main_loop s).bRestartCount = s.bRestartCount - 1 ∧
            (s.bRestartCount = 1 → P_RESTART (main_loop s) = false) ∧
            (s.bRestartCount ≠ 1 → P_RESTART (main_loop s) = P_RESTART s)) ∧
        (s.bRestartCount = 0 →
          (main_loop s).bRestartCount = 0 ∧ P_RESTART (main_loop s) = P_RESTART s)) ∧
      (P_SYNCH (main_loop s) = true → P_SYNCH s = true) ∧
      (P_RESTART (main_loop s) = true → P_RESTART s = true) ∧
      P_RUN (main_loop s) = P_RUN s := by
  refine ⟨?_, ?_, ?_, ?_, P_RUN_main_loop s⟩
  · intro hle
    rw [bSynchCount_main_loop, P_SYNCH_main_loop]
    refine ⟨fun hpos => ?_, fun h0 => ?_⟩
    · have hne : s.bSynchCount ≠ 0 := by omega
      have hm : (s.bSynchCount + 255) % 256 = s.bSynchCount - 1 := by omega
      simp only [hne, ne_eq, not_false_eq_true, if_true, hm, true_and]
      refine ⟨fun h1 => ?_, fun h1 => ?_⟩
      · simp [h1]
      · have : ¬ s.bSynchCount - 1 = 0 := by omega
        simp [this]
    · simp [h0]
  · intro hle
    rw [bRestartCount_main_loop, P_RESTART_main_loop]
    refine ⟨fun hpos => ?_, fun h0 => ?_⟩
    · have hne : s.bRestartCount ≠ 0 := by omega
      have hm : (s.bRestartCount + 255) % 256 = s.bRestartCount - 1 := by omega
      simp only [hne, ne_eq, not_false_eq_true, if_true, hm, true_and]
      refine ⟨fun h1 => ?_, fun h1 => ?_⟩
      · simp [h1]
      · have : ¬ s.bRestartCount - 1 = 0 := by omega
        simp [this]
    · simp [h0]
  · rw [P_SYNCH_main_loop]
    split_ifs
    · intro h; cases h
    · exact id
  · rw [P_RESTART_main_loop]
    split_ifs
    · intro h; cases h
    · exact id

/-- C13 at a concrete input: in the state reached from the all-zero state by a Clock byte
(timer 255, pin high), one iteration leaves the timer at 254 and the pin high. -/
theorem loop_iteration_effect_witness :
    (receive 0xf8 allZero).bSynchCount ≤ 255 ∧ 0 < (receive 0xf8 allZero).bSynchCount ∧
      (main_loop (receive 0xf8 allZero)).bSynchCount = (receive 0xf8 allZero).bSynchCount - 1 :=
  ⟨by decide, by decide,
    (((loop_iteration_effect (receive 0xf8 allZero)).1 (by decide)).1 (by decide)).1⟩

/-! ## C14: the start-up diagnostic -/

theorem flashLed_pos (i : Int) (s : State) (h : 0 < i) :
    flashLed i s = flashLed (i - 1) (set_P_RUN false (set_P_RUN true s)) := by
  conv_lhs => rw [flashLed]
  rw [if_pos h]

theorem flashLed_nonpos (i : Int) (s : State) (h : i ≤ 0) : flashLed i s = s := by
  rw [flashLed, if_neg (not_lt.mpr h)]

theorem flashLedLog_pos (i : Int) (s : State) (log : List (Pin × Bool)) (h : 0 < i) :
    flashLedLog i s log =
      flashLedLog (i - 1) (set_P_RUN false (set_P_RUN true s))
        (log ++ [(Pin.run, true), (Pin.run, false)]) := by
  conv_lhs => rw [flashLedLog]
  rw [if_pos h]

theorem flashLedLog_nonpos (i : Int) (s : State) (log : List (Pin × Bool)) (h : i ≤ 0) :
    flashLedLog i s log = (s, log) := by
  rw [flashLedLog, if_neg (not_lt.mpr h)]

theorem flashLedLog_eq (n : Nat) (i : Int) (hn : i.toNat = n) (s : State)
    (log : List (Pin × Bool)) :
    flashLedLog i s log = (flashLed i s, log ++ runPulses n) ∧
      flashLed i s = (runPulses n).foldl writePin s := by
  induction n generalizing i s log with
  | zero =>
    have hi : i ≤ 0 := Int.toNat_eq_zero.mp hn
    rw [flashLedLog_nonpos i s log hi, flashLed_nonpos i s hi]
    simp [runPulses]
  | succ m ih =>
    have hi : 0 < i := by omega
    have hm : (i - 1).toNat = m := by omega
    rw [flashLedLog_pos i s log hi, flashLed_pos i s hi]
    obtain ⟨h1, h2⟩ := ih (i - 1) hm (set_P_RUN false (set_P_RUN true s))
      (log ++ [(Pin.run, true), (Pin.run, false)])
    rw [h1, h2]
    refine ⟨?_, rfl⟩
    simp [runPulses]

theorem runPulses_frame (n : Nat) (s : State) :
    P_SYNCH ((runPulses n).foldl writePin s) = P_SYNCH s ∧
      P_RESTART ((runPulses n).foldl writePin s) = P_RESTART s ∧
      ((runPulses n).foldl writePin s).bSynchCount = s.bSynchCount ∧
      ((runPulses n).foldl writePin s).bRestartCount = s.bRestartCount ∧
      ((runPulses n).foldl writePin s).bRunning = s.bRunning ∧
      (0 < n → P_RUN ((runPulses n).foldl writePin s) = false) := by
  induction n generalizing s with
  | zero => exact ⟨rfl, rfl, rfl, rfl, rfl, fun h => absurd h (Nat.lt_irrefl 0)⟩
  | succ m ih =>
    have hstep : (runPulses (m + 1)).foldl writePin s =
        (runPulses m).foldl writePin (set_P_RUN false (set_P_RUN true s)) := rfl
    rw [hstep]
    obtain ⟨h1, h2, h3, h4, h5, h6⟩ := ih (set_P_RUN false (set_P_RUN true s))
    refine ⟨?_, ?_, ?_, ?_, ?_, fun _ => ?_⟩
    · rw [h1, P_SYNCH_set_P_RUN, P_SYNCH_set_P_RUN]
    · rw [h2, P_RESTART_set_P_RUN, P_RESTART_set_P_RUN]
    · rw [h3]; rfl
    · rw [h4]; rfl
    · rw [h5]; rfl
    · rcases Nat.eq_zero_or_pos m with hm | hm
      · subst hm
        exact P_RUN_set_P_RUN false _
      · exact h6 hm

theorem runPulses_pin (n : Nat) : ∀ w ∈ runPulses n, w.1 = Pin.run := by
  induction n with
  | zero => intro w hw; cases hw
  | succ m ih =>
    intro w hw
    simp only [runPulses, List.mem_cons] at hw
    rcases hw with h | h | h
    · rw [h]
    · rw [h]
    · exact ih w h

/-- C14. For every argument `i`, `flashLed i` returns, and the pin writes it performs are
exactly max(i, 0) pulses of the Run pin, each a write of 1 followed by a write of 0: no
other pin is written, the Sync and Restart pins and the three globals are as before.
For i > 0 it returns with the Run pin low; for i <= 0 it performs no write and returns the
state it was given. `main` calls it with 3 after its set-up statements, so the Run pin is
pulsed exactly three times. -/
theorem flashLed_pulses (i : Int) (s : State) :
    flashLedLog i s [] = (flashLed i s, runPulses i.toNat) ∧
      flashLed i s = (runPulses i.toNat).foldl writePin s ∧
      (i.toNat : Int) = max i 0 ∧
      (∀ w ∈ runPulses i.toNat, w.1 = Pin.run) ∧
      P_SYNCH (flashLed i s) = P_SYNCH s ∧ P_RESTART (flashLed i s) = P_RESTART s ∧
      (flashLed i s).bSynchCount = s.bSynchCount ∧
      (flashLed i s).bRestartCount = s.bRestartCount ∧
      (flashLed i s).bRunning = s.bRunning ∧
      (0 < i → P_RUN (flashLed i s) = false) ∧
      (i ≤ 0 → flashLedLog i s [] = (s, [])) ∧
      main_init s = flashLed 3 (main_setup s) ∧
      (flashLedLog 3 (main_setup s) []).2 =
        [(Pin.run, true), (Pin.run, false), (Pin.run, true), (Pin.run, false),
         (Pin.run, true), (Pin.run, false)] := by
  obtain ⟨h1, h2⟩ := flashLedLog_eq i.toNat i rfl s []
  obtain ⟨f1, f2, f3, f4, f5, f6⟩ := runPulses_frame i.toNat s
  rw [← h2] at f1 f2 f3 f4 f5 f6
  refine ⟨by simpa using h1, h2, by omega, runPulses_pin _, f1, f2, f3, f4, f5,
    fun hi => f6 (by omega), fun hi => flashLedLog_nonpos i s [] hi, rfl, ?_⟩
  rw [(flashLedLog_eq 3 3 rfl (main_setup s) []).1]
  rfl

/-- C14 at concrete inputs: a positive argument leaves the Run pin low and a negative one
performs no write. -/
theorem flashLed_pulses_witness :
    (0 : Int) < 2 ∧ P_RUN (flashLed 2 allZero) = false ∧
      (-1 : Int) ≤ 0 ∧ flashLedLog (-1) allZero [] = (allZero, []) :=
  ⟨by decide, (flashLed_pulses 2 allZero).2.2.2.2.2.2.2.2.2.1 (by decide),
    by decide, (flashLed_pulses (-1) allZero).2.2.2.2.2.2.2.2.2.2.1 (by decide)⟩

/-! ## C15: the state at loop entry is a fixed point of the loop -/

theorem main_loop_idle (s : State) (h1 : s.bSynchCount = 0) (h2 : s.bRestartCount = 0) :
    main_loop s = s := by
  have hs : decaySynch s = s := by
    rw [decaySynch_eq, if_pos h1]
  unfold main_loop
  rw [hs, decayRestart_eq, if_pos h2]

theorem main_loop_iterate_idle (s : State) (h1 : s.bSynchCount = 0)
    (h2 : s.bRestartCount = 0) (n : Nat) : main_loop^[n] s = s := by
  induction n with
  | zero => rfl
  | succ k ih => rw [Function.iterate_succ_apply', ih, main_loop_idle s h1 h2]

/-- C15. Whatever the registers hold at power-up, the state in which `main` enters its
loop when no byte was received during start-up has the Run, Sync and Restart pins low and
`bSynchCount`, `bRestartCount` and `bRunning` all 0, and any number of main-loop iterations
leaves that state exactly as it is. -/
theorem loop_entry_state (hw : State) :
    P_RUN (loopEntry hw) = false ∧ P_SYNCH (loopEntry hw) = false ∧
      P_RESTART (loopEntry hw) = false ∧
      (loopEntry hw).bSynchCount = 0 ∧ (loopEntry hw).bRestartCount = 0 ∧
      (loopEntry hw).bRunning = 0 ∧
      (∀ n : Nat, main_loop^[n] (loopEntry hw) = loopEntry hw) := by
  obtain ⟨p1, p2, p3⟩ := loopEntry_pins hw
  obtain ⟨g1, g2, g3⟩ := loopEntry_globals hw
  exact ⟨p1, p2, p3, g2, g3, g1, main_loop_iterate_idle (loopEntry hw) g2 g3⟩

/-! ## C16: the handler is gated on the receive flag -/

/-- C16. For every state in which the serial-receive flag `pir1.5` is clear, whatever the
receive register holds, `interrupt` returns the state it was given: no pin, no timer and
no other register changes. -/
theorem interrupt_gated (s : State) (hflag : bitRead s.pir1 5 = false) :
    interrupt s = s ∧
      P_RUN (interrupt s) = P_RUN s ∧ P_SYNCH (interrupt s) = P_SYNCH s ∧
      P_RESTART (interrupt s) = P_RESTART s ∧
      (interrupt s).bSynchCount = s.bSynchCount ∧
      (interrupt s).bRestartCount = s.bRestartCount := by
  have h : interrupt s = s := by
    unfold interrupt
    rw [hflag]
    rfl
  rw [h]
  exact ⟨rfl, rfl, rfl, rfl, rfl, rfl⟩

/-- C16 at concrete inputs: with the flag clear and the receive register holding 0xF8 the
Sync pin stays low and the timer stays 0; with the flag set the same register value
raises the pin. -/
theorem interrupt_gated_witness :
    bitRead ({ allZero with rcreg := 0xf8 } : State).pir1 5 = false ∧
      interrupt { allZero with rcreg := 0xf8 } = { allZero with rcreg := 0xf8 } ∧
      P_SYNCH (interrupt { allZero with rcreg := 0xf8, pir1 := 0x20 }) = true :=
  ⟨by decide, (interrupt_gated { allZero with rcreg := 0xf8 } (by decide)).1, by decide⟩

end MidiSynch
